import Mathlib

/-!
Download task lifecycle, task registry and control server.

A shallow embedding of `DownloaderCore/DownloadTask.{h,cpp}`, `DownloaderCore/Downloader.{h,cpp}`
and the command handling of `server.cpp`.

* `DownloadTask` carries the data members of the C++ class, under their source names.
* `Process` carries what lives outside a single task object: the function-local
  `static std::ofstream file` of `DownloadTask::onWriteData` with the put area of its
  `std::filebuf`, the file system, the transfers handed to libcurl and the calls made to user
  progress callbacks.  The source never flushes or closes the stream, so a byte reaches the
  file only when `std::filebuf::xsputn` hands it to the operating system.
* `size_t` members are natural numbers reduced modulo `2 ^ 64` where the source adds.
* libcurl is the environment.  A `Fetch` says what one `curl_easy_perform` call does: which
  callbacks it makes, which control-thread calls (`pause`, `cancel`) arrive meanwhile, and how
  the transfer ends when no callback aborts it.  A write callback that returns a count
  different from the offered one ends the transfer with `CURLE_WRITE_ERROR`, a progress
  callback that returns non-zero ends it with `CURLE_ABORTED_BY_CALLBACK`.
* A history of one task is given at two grains: whole calls with the events of their
  transfers (`runOps`, `deliver`), and single steps of several threads in any order
  (`runSteps`), where a `start()` call is split around `curl_easy_perform`.
* `Downloader` is the registry: the map `tasks_` as a list of entries, the `int` counter
  `nextTaskId_` with its two's complement wrap, and the work enqueued on the worker pool.
* `DownloadServer` is the state the command handlers use.  `processCommand` takes the command
  text and returns the response text; `handleClient` takes what the successive `recv` calls
  return.  Stream extraction (`operator>>`) is modelled on lists of characters.
* Logging is left out.
-/

/-- Number of values of a `size_t`. -/
def SIZE_MOD : Nat := 2 ^ 64

/-- `CURLE_OK`. -/
def CURLE_OK : Nat := 0

/-- `CURLE_WRITE_ERROR`. -/
def CURLE_WRITE_ERROR : Nat := 23

/-- `CURLE_ABORTED_BY_CALLBACK`. -/
def CURLE_ABORTED_BY_CALLBACK : Nat := 42

/-- Messages of `curl_easy_strerror` for the result codes met most often. -/
def curl_easy_strerror (code : Nat) : String :=
  match code with
  | 0 => "No error"
  | 6 => "Could not resolve hostname"
  | 7 => "Could not connect to server"
  | 18 => "Transferred a partial file"
  | 23 => "Failed writing received data to disk/application"
  | 28 => "Timeout was reached"
  | 42 => "Operation was aborted by an application callback"
  | 56 => "Failure when receiving data from the peer"
  | _ => "Unknown error"

/-- `DownloadTask::Status`. -/
inductive Status where
  | Idle
  | Downloading
  | Paused
  | Completed
  | Failed
  | Cancelled
deriving DecidableEq, Repr

/-- The options `setupCurl` puts on the easy handle that decide the request sent:
`CURLOPT_URL`, `CURLOPT_TIMEOUT` and `CURLOPT_RANGE` (`none` when it is not set). -/
structure CurlHandle where
  url : String
  timeout : Int
  range : Option String
deriving DecidableEq, Repr

/-- Data members of `class DownloadTask`.  `progressCallback_` records whether a user
callback is set, `curlHandle_` is `none` for `nullptr`. -/
structure DownloadTask where
  url_ : String
  outputPath_ : String
  rangeStart_ : Nat
  rangeEnd_ : Nat
  timeout_ : Int
  status_ : Status
  downloadedSize_ : Nat
  totalSize_ : Nat
  cancelRequested_ : Bool
  errorMessage_ : String
  progressCallback_ : Bool
  curlHandle_ : Option CurlHandle
deriving DecidableEq, Repr

/-- State shared by all tasks of one process.
`file` is the `static std::ofstream file` declared inside `onWriteData`: the path it is open
on, `none` while it is closed; `fileFailed` is its error state (`!file.good()`); `pending`
holds the bytes in the put area of its `std::filebuf`, which `file.write` took and the file
does not hold yet.
`disk` maps a path to the bytes of the file there, `requests` lists the handles given to
`curl_easy_perform`, `callbackCalls` the arguments of the user progress callback calls. -/
structure Process where
  file : Option String
  fileFailed : Bool
  pending : List Nat
  disk : String → Option (List Nat)
  requests : List CurlHandle
  callbackCalls : List (Nat × Nat)

/-- What happens while a worker is inside `curl_easy_perform`. -/
inductive FetchEvent where
  /-- libcurl calls the write callback with `data`; `openOk` says whether `file.open`
  succeeds and `writeOk` whether `file.write` leaves the stream good. -/
  | write (data : List Nat) (openOk writeOk : Bool)
  /-- libcurl calls the progress callback; the arguments are `dltotal` and `dlnow` after
  `static_cast<size_t>`. -/
  | progress (dltotal dlnow : Nat)
  /-- Another thread calls `pause()` (`Downloader::pauseTask`). -/
  | pause
  /-- Another thread calls `cancel()` (`Downloader::cancelTask`). -/
  | cancel
deriving DecidableEq, Repr

/-- The environment of one `start()` call: whether `curl_easy_init` returns a handle, the
events during the transfer, the `CURLcode` the transfer ends with when no callback aborts it,
and `CURLINFO_RESPONSE_CODE`. -/
structure Fetch where
  initOk : Bool
  events : List FetchEvent
  result : Nat
  responseCode : Int
deriving DecidableEq, Repr

namespace Process

/-- A process that has not written yet: the stream is closed, nothing was requested. -/
def fresh (disk : String → Option (List Nat)) : Process :=
  { file := none, fileFailed := false, pending := [], disk := disk, requests := [],
    callbackCalls := [] }

/-- Effect of a successful `file.open(path, mode)` on the file system: `std::ios::app` keeps
the contents (creating an empty file when there is none), `std::ios::trunc` empties it. -/
def openFile (disk : String → Option (List Nat)) (path : String) (app : Bool) :
    String → Option (List Nat) :=
  fun q => if q = path then (if app then some ((disk path).getD []) else some []) else disk q

/-- Effect on the file at `path` of the bytes `data` that the `std::filebuf` of the stream
hands to the operating system. -/
def writeFile (disk : String → Option (List Nat)) (path : String) (data : List Nat) :
    String → Option (List Nat) :=
  fun q => if q = path then some ((disk path).getD [] ++ data) else disk q

/-- Length of the put area of a `std::filebuf`: `BUFSIZ - 1`, with `BUFSIZ` 8192. -/
def FILEBUF_PUT_AREA : Nat := 8191

/-- `std::basic_filebuf::xsputn` of libstdc++, which a successful `file.write(data, length)`
on the stream open on `path` comes down to.  With `pending` in the put area, a chunk of at
least `min(1024, free length of the put area)` bytes is handed to the operating system right
behind the pending bytes; a shorter chunk is copied into the put area and the file is not
touched.  The result is the file system and the pending bytes afterwards. -/
def xsputn (disk : String → Option (List Nat)) (path : String) (pending data : List Nat) :
    (String → Option (List Nat)) × List Nat :=
  if min 1024 (FILEBUF_PUT_AREA - pending.length) ≤ data.length then
    (writeFile disk path (pending ++ data), [])
  else (disk, pending ++ data)

end Process

namespace DownloadTask

/-- `DownloadTask::DownloadTask(url, outputPath)` with the default member initialisers. -/
def new (url outputPath : String) : DownloadTask :=
  { url_ := url, outputPath_ := outputPath, rangeStart_ := 0, rangeEnd_ := 0, timeout_ := 30,
    status_ := Status.Idle, downloadedSize_ := 0, totalSize_ := 0, cancelRequested_ := false,
    errorMessage_ := "", progressCallback_ := false, curlHandle_ := none }

/-- `setRangeStart`. -/
def setRangeStart (t : DownloadTask) (start : Nat) : DownloadTask :=
  { t with rangeStart_ := start % SIZE_MOD }

/-- `setRangeEnd`. -/
def setRangeEnd (t : DownloadTask) (e : Nat) : DownloadTask :=
  { t with rangeEnd_ := e % SIZE_MOD }

/-- `setTimeout`. -/
def setTimeout (t : DownloadTask) (timeout : Int) : DownloadTask :=
  { t with timeout_ := timeout }

/-- `setProgressCallback`; `set` is false for an empty `std::function`. -/
def setProgressCallback (t : DownloadTask) (set : Bool) : DownloadTask :=
  { t with progressCallback_ := set }

/-- `DownloadTask::pause`. -/
def pause (t : DownloadTask) : DownloadTask × Bool :=
  if t.status_ ≠ Status.Downloading then (t, false)
  else ({ t with cancelRequested_ := true, status_ := Status.Paused }, true)

/-- `DownloadTask::cancel`. -/
def cancel (t : DownloadTask) : DownloadTask × Bool :=
  ({ t with cancelRequested_ := true, status_ := Status.Cancelled }, true)

/-- `DownloadTask::cleanup`; `headerList_` is never assigned, so only the handle goes. -/
def cleanup (t : DownloadTask) : DownloadTask :=
  { t with curlHandle_ := none }

/-- The string given to `CURLOPT_RANGE`, `none` when the option is not set. -/
def rangeOption (t : DownloadTask) : Option String :=
  if t.rangeStart_ > 0 then
    some (toString t.rangeStart_ ++ "-" ++
      (if t.rangeEnd_ > 0 ∧ t.rangeEnd_ > t.rangeStart_ then toString t.rangeEnd_ else ""))
  else none

/-- `DownloadTask::setupCurl`; `initOk` says whether `curl_easy_init` returns a handle. -/
def setupCurl (t : DownloadTask) (initOk : Bool) : DownloadTask × Bool :=
  let t0 := cleanup t
  if initOk = false then (t0, false)
  else
    ({ t0 with curlHandle_ := some (CurlHandle.mk t0.url_ t0.timeout_ (rangeOption t0)) }, true)

/-- `DownloadTask::onWriteData`, called with `length = data.length`.  The stream is opened
when it is not open yet and never closed; `file.write` goes through `Process.xsputn`. -/
def onWriteData (p : Process) (t : DownloadTask) (data : List Nat) (openOk writeOk : Bool) :
    Process × DownloadTask × Nat :=
  if t.cancelRequested_ then (p, t, 0)
  else
    match p.file with
    | none =>
      if openOk = false then ({ p with fileFailed := true }, t, 0)
      else if writeOk = false then
        ({ p with file := some t.outputPath_, fileFailed := true, pending := [],
                  disk := Process.openFile p.disk t.outputPath_ (decide (t.rangeStart_ > 0)) },
          t, 0)
      else
        ({ p with file := some t.outputPath_, fileFailed := false,
                  pending := (Process.xsputn
                    (Process.openFile p.disk t.outputPath_ (decide (t.rangeStart_ > 0)))
                    t.outputPath_ [] data).2,
                  disk := (Process.xsputn
                    (Process.openFile p.disk t.outputPath_ (decide (t.rangeStart_ > 0)))
                    t.outputPath_ [] data).1 },
          { t with downloadedSize_ := (t.downloadedSize_ + data.length) % SIZE_MOD },
          data.length)
    | some path =>
      if p.fileFailed = true ∨ writeOk = false then ({ p with fileFailed := true }, t, 0)
      else
        ({ p with pending := (Process.xsputn p.disk path p.pending data).2,
                  disk := (Process.xsputn p.disk path p.pending data).1 },
          { t with downloadedSize_ := (t.downloadedSize_ + data.length) % SIZE_MOD },
          data.length)

/-- `DownloadTask::onProgress`. -/
def onProgress (p : Process) (t : DownloadTask) (dltotal dlnow : Nat) :
    Process × DownloadTask × Int :=
  if t.cancelRequested_ then (p, t, 1)
  else
    let t1 := { t with totalSize_ := (t.rangeStart_ + dltotal) % SIZE_MOD,
                       downloadedSize_ := (t.rangeStart_ + dlnow) % SIZE_MOD }
    let p1 := if t1.progressCallback_ then
        { p with callbackCalls := p.callbackCalls ++ [(t1.downloadedSize_, t1.totalSize_)] }
      else p
    (p1, t1, 0)

/-- The body of a transfer: the events are taken in order until a callback aborts.  The third
component is the `CURLcode` of the abort, `none` when every event was taken. -/
def deliver : Process → DownloadTask → List FetchEvent → Process × DownloadTask × Option Nat
  | p, t, [] => (p, t, none)
  | p, t, FetchEvent.write data openOk writeOk :: es =>
    let r := onWriteData p t data openOk writeOk
    if r.2.2 ≠ data.length then (r.1, r.2.1, some CURLE_WRITE_ERROR)
    else deliver r.1 r.2.1 es
  | p, t, FetchEvent.progress dltotal dlnow :: es =>
    let r := onProgress p t dltotal dlnow
    if r.2.2 ≠ 0 then (r.1, r.2.1, some CURLE_ABORTED_BY_CALLBACK)
    else deliver r.1 r.2.1 es
  | p, t, FetchEvent.pause :: es => deliver p (pause t).1 es
  | p, t, FetchEvent.cancel :: es => deliver p (cancel t).1 es

/-- `curl_easy_perform(curlHandle_)`: the request is sent, the events are delivered, and the
result is the abort code if a callback aborted and the transfer's own result otherwise. -/
def curl_easy_perform (h : CurlHandle) (p : Process) (t : DownloadTask) (f : Fetch) :
    Process × DownloadTask × Nat :=
  let r := deliver { p with requests := p.requests ++ [h] } t f.events
  (r.1, r.2.1, r.2.2.getD f.result)

/-- `DownloadTask::performDownload`. -/
def performDownload (p : Process) (t : DownloadTask) (f : Fetch) :
    Process × DownloadTask × Bool :=
  match t.curlHandle_ with
  | none =>
    (p, { t with status_ := Status.Failed, errorMessage_ := "CURL handle is not initialized" },
      false)
  | some h =>
    let r := curl_easy_perform h p { t with status_ := Status.Downloading } f
    if r.2.2 ≠ CURLE_OK then
      (r.1, { r.2.1 with status_ := Status.Failed, errorMessage_ := curl_easy_strerror r.2.2 },
        false)
    else if r.2.1.cancelRequested_ then (r.1, r.2.1, false)
    else if f.responseCode ≠ 200 ∧ f.responseCode ≠ 206 then
      (r.1, { r.2.1 with status_ := Status.Failed,
                         errorMessage_ := "HTTP error: " ++ toString f.responseCode }, false)
    else (r.1, { r.2.1 with status_ := Status.Completed }, true)

/-- `DownloadTask::start`. -/
def start (p : Process) (t : DownloadTask) (f : Fetch) : Process × DownloadTask × Bool :=
  if t.status_ ≠ Status.Idle ∧ t.status_ ≠ Status.Failed then (p, t, false)
  else
    let s := setupCurl t f.initOk
    if s.2 = false then (p, s.1, false)
    else performDownload p { s.1 with cancelRequested_ := false, errorMessage_ := "" } f

/-- `DownloadTask::resume`. -/
def resume (p : Process) (t : DownloadTask) (f : Fetch) : Process × DownloadTask × Bool :=
  if t.status_ ≠ Status.Paused then (p, t, false)
  else start p { t with rangeStart_ := t.downloadedSize_, cancelRequested_ := false } f

/-- The statuses a task can have while a worker is inside `curl_easy_perform`. -/
def InFlight (s : Status) : Prop :=
  s = Status.Downloading ∨ s = Status.Paused ∨ s = Status.Cancelled

end DownloadTask

/-! ## Concrete inputs -/

/-- A file system without files. -/
def emptyDisk : String → Option (List Nat) := fun _ => none

/-- A transfer that delivers `data` in one write callback, reports it in one progress tick and
ends with `CURLE_OK` and the given response code. -/
def plainFetch (data : List Nat) (code : Int) : Fetch :=
  { initOk := true,
    events := [FetchEvent.write data true true, FetchEvent.progress data.length data.length],
    result := CURLE_OK, responseCode := code }

/-- A task that was paused after five bytes. -/
def pausedTask : DownloadTask :=
  { DownloadTask.new "http://example.test/1k.bin" "/tmp/b.bin" with
    status_ := Status.Paused, cancelRequested_ := true, downloadedSize_ := 5, totalSize_ := 10 }

/-- Two tasks of one process with different output paths. -/
def taskA : DownloadTask := DownloadTask.new "http://example.test/a" "/tmp/a.bin"

/-- The second task of the process. -/
def taskB : DownloadTask := DownloadTask.new "http://example.test/b" "/tmp/b.bin"

/-- The process after task A ran `start()` to completion. -/
def afterA : Process × DownloadTask × Bool :=
  DownloadTask.start (Process.fresh emptyDisk) taskA (plainFetch [1, 2] 200)

/-- The process after task B then ran `start()` to completion. -/
def afterB : Process × DownloadTask × Bool :=
  DownloadTask.start afterA.1 taskB (plainFetch [3, 4, 5] 200)

/-- A transfer during which `pause()` arrives between two write callbacks. -/
def pausedFetch : Fetch :=
  { initOk := true,
    events := [FetchEvent.write [1, 2] true true, FetchEvent.pause,
               FetchEvent.write [3] true true],
    result := CURLE_OK, responseCode := 200 }

/-- A transfer during which `cancel()` arrives before a progress tick. -/
def cancelledFetch : Fetch :=
  { initOk := true,
    events := [FetchEvent.write [1, 2] true true, FetchEvent.cancel,
               FetchEvent.progress 10 2],
    result := CURLE_OK, responseCode := 200 }

/-- The task A asked to stop at byte 100 and never given a start offset. -/
def rangeEndTask : DownloadTask := DownloadTask.setRangeEnd taskA 100

/-- A 206 response of unknown length (`dltotal` is 0) carrying five bytes. -/
def unknownLengthFetch : Fetch :=
  { initOk := true,
    events := [FetchEvent.write [1, 2, 3, 4, 5] true true, FetchEvent.progress 0 5],
    result := CURLE_OK, responseCode := 206 }

/-- The task A started from offset 3 against a response of unknown length. -/
def rangedRun : Process × DownloadTask × Bool :=
  DownloadTask.start (Process.fresh emptyDisk) (DownloadTask.setRangeStart taskA 3)
    unknownLengthFetch

/-- A 200 response with an empty body: one progress tick and no write callback. -/
def emptyBodyFetch : Fetch :=
  { initOk := true, events := [FetchEvent.progress 0 0], result := CURLE_OK,
    responseCode := 200 }

/-- A call of one of the four control operations of a task; `start` and `resume` come with
the transfer their `curl_easy_perform` call would meet. -/
inductive TaskOp where
  | start (f : Fetch)
  | pause
  | resume (f : Fetch)
  | cancel
deriving DecidableEq, Repr

namespace DownloadTask

/-- The process and the task after one control operation returned. -/
def applyOp (s : Process × DownloadTask) : TaskOp → Process × DownloadTask
  | TaskOp.start f => ((start s.1 s.2 f).1, (start s.1 s.2 f).2.1)
  | TaskOp.pause => (s.1, (pause s.2).1)
  | TaskOp.resume f => ((resume s.1 s.2 f).1, (resume s.1 s.2 f).2.1)
  | TaskOp.cancel => (s.1, (cancel s.2).1)

/-- The process and the task after a sequence of control operations. -/
def runOps (s : Process × DownloadTask) (ops : List TaskOp) : Process × DownloadTask :=
  ops.foldl applyOp s

/-- The process and the task seen while a `start()` call is inside `curl_easy_perform` and the
events `es` have been delivered: the status guard was passed, the handle set up,
`cancelRequested_` and `errorMessage_` cleared and the status set to Downloading.  When the
status guard refuses the call there is no transfer and the state is `s` itself. -/
def inFlightState (s : Process × DownloadTask) (es : List FetchEvent) : Process × DownloadTask :=
  if s.2.status_ ≠ Status.Idle ∧ s.2.status_ ≠ Status.Failed then s
  else
    ((deliver
        { s.1 with requests := s.1.requests ++
            [CurlHandle.mk s.2.url_ s.2.timeout_ (rangeOption s.2)] }
        { s.2 with curlHandle_ := some (CurlHandle.mk s.2.url_ s.2.timeout_ (rangeOption s.2)),
                   cancelRequested_ := false, errorMessage_ := "",
                   status_ := Status.Downloading } es).1,
     (deliver
        { s.1 with requests := s.1.requests ++
            [CurlHandle.mk s.2.url_ s.2.timeout_ (rangeOption s.2)] }
        { s.2 with curlHandle_ := some (CurlHandle.mk s.2.url_ s.2.timeout_ (rangeOption s.2)),
                   cancelRequested_ := false, errorMessage_ := "",
                   status_ := Status.Downloading } es).2.1)

/-- What holds of `rangeStart_` along every history of a task: it is still 0, or `resume()`
stored `downloadedSize_` in it and the task is stuck in Paused or Cancelled. -/
def RangeInv (t : DownloadTask) : Prop :=
  t.rangeStart_ = 0 ∨
    (t.downloadedSize_ = t.rangeStart_ ∧
      (t.status_ = Status.Paused ∨ t.status_ = Status.Cancelled))

end DownloadTask

/-! ## Interleaved histories of one task -/

/-- One step taken on a task by one of the threads of the process.  A `start()` call makes
two steps: the worker that runs it sits in `curl_easy_perform` in between, while libcurl
calls the two hooks on that worker and other threads call `pause()`, `resume()` and
`cancel()` (`Downloader::pauseTask`, `resumeTask`, `cancelTask`).  Each hook call and each
call of the three other operations is one step. -/
inductive TaskStep where
  /-- A worker calls `start()` and runs it up to the call of `curl_easy_perform`. -/
  | enterStart (initOk : Bool)
  /-- libcurl calls the write callback. -/
  | write (data : List Nat) (openOk writeOk : Bool)
  /-- libcurl calls the progress callback. -/
  | progress (dltotal dlnow : Nat)
  /-- `curl_easy_perform` returns `result` and the worker runs `performDownload` to its
  end. -/
  | leaveStart (result : Nat) (responseCode : Int)
  /-- A thread calls `pause()`. -/
  | pause
  /-- A thread calls `resume()`; `f` is the transfer its `start()` call would meet. -/
  | resume (f : Fetch)
  /-- A thread calls `cancel()`. -/
  | cancel
deriving DecidableEq, Repr

/-- The step a transfer event is. -/
def FetchEvent.toStep : FetchEvent → TaskStep
  | FetchEvent.write data openOk writeOk => TaskStep.write data openOk writeOk
  | FetchEvent.progress dltotal dlnow => TaskStep.progress dltotal dlnow
  | FetchEvent.pause => TaskStep.pause
  | FetchEvent.cancel => TaskStep.cancel

namespace DownloadTask

/-- `start()` from its first statement to the call of `curl_easy_perform` in
`performDownload`: the task then, and whether `curl_easy_perform` is called. -/
def enterStart (t : DownloadTask) (initOk : Bool) : DownloadTask × Bool :=
  if t.status_ ≠ Status.Idle ∧ t.status_ ≠ Status.Failed then (t, false)
  else
    let s := setupCurl t initOk
    if s.2 = false then (s.1, false)
    else
      match s.1.curlHandle_ with
      | none =>
        ({ s.1 with cancelRequested_ := false, status_ := Status.Failed,
                    errorMessage_ := "CURL handle is not initialized" }, false)
      | some _ =>
        ({ s.1 with cancelRequested_ := false, errorMessage_ := "",
                    status_ := Status.Downloading }, true)

/-- `performDownload` from the return of `curl_easy_perform`, with the code `res`, to its
end: the task then and the value returned. -/
def leaveStart (t : DownloadTask) (res : Nat) (responseCode : Int) : DownloadTask × Bool :=
  if res ≠ CURLE_OK then
    ({ t with status_ := Status.Failed, errorMessage_ := curl_easy_strerror res }, false)
  else if t.cancelRequested_ then (t, false)
  else if responseCode ≠ 200 ∧ responseCode ≠ 206 then
    ({ t with status_ := Status.Failed,
              errorMessage_ := "HTTP error: " ++ toString responseCode }, false)
  else ({ t with status_ := Status.Completed }, true)

/-- The process and the task after one step. -/
def applyStep (s : Process × DownloadTask) : TaskStep → Process × DownloadTask
  | TaskStep.enterStart initOk =>
    (if (enterStart s.2 initOk).2 then
        { s.1 with requests := s.1.requests ++ (enterStart s.2 initOk).1.curlHandle_.toList }
      else s.1,
      (enterStart s.2 initOk).1)
  | TaskStep.write data openOk writeOk =>
    ((onWriteData s.1 s.2 data openOk writeOk).1, (onWriteData s.1 s.2 data openOk writeOk).2.1)
  | TaskStep.progress dltotal dlnow =>
    ((onProgress s.1 s.2 dltotal dlnow).1, (onProgress s.1 s.2 dltotal dlnow).2.1)
  | TaskStep.leaveStart res responseCode => (s.1, (leaveStart s.2 res responseCode).1)
  | TaskStep.pause => (s.1, (pause s.2).1)
  | TaskStep.resume f => ((resume s.1 s.2 f).1, (resume s.1 s.2 f).2.1)
  | TaskStep.cancel => (s.1, (cancel s.2).1)

/-- The process and the task after a sequence of steps, in any order. -/
def runSteps (s : Process × DownloadTask) (steps : List TaskStep) : Process × DownloadTask :=
  steps.foldl applyStep s

/-- Whether the `size_t` sum a hook computes on the task stays below `2 ^ 64`: the sum
`downloadedSize_ + length` of the write callback, the sum `rangeStart_ + dlnow` of the
progress tick.  The other steps compute no sum. -/
def stepFits (t : DownloadTask) : TaskStep → Bool
  | TaskStep.write data _ _ => decide (t.downloadedSize_ + data.length < SIZE_MOD)
  | TaskStep.progress _ dlnow => decide (t.rangeStart_ + dlnow < SIZE_MOD)
  | _ => true

/-- Whether every step of the sequence fits in the state it is taken in. -/
def stepsFit : Process × DownloadTask → List TaskStep → Bool
  | _, [] => true
  | s, step :: steps => stepFits s.2 step && stepsFit (applyStep s step) steps

end DownloadTask

/-- A transfer of task A that reports `2 ^ 63` bytes, is paused and resumed from another
thread before libcurl makes its next call, and then reports `2 ^ 63` bytes again. -/
def wrapSteps : List TaskStep :=
  [TaskStep.enterStart true,
   TaskStep.progress 9223372036854775808 9223372036854775808,
   TaskStep.pause,
   TaskStep.resume emptyBodyFetch,
   TaskStep.progress 9223372036854775808 9223372036854775808]

/-- A transfer of task A that writes two bytes, is paused and resumed from another thread
before libcurl makes its next call, and then reports four bytes of ten. -/
def resumedSteps : List TaskStep :=
  [TaskStep.enterStart true,
   TaskStep.write [1, 2] true true,
   TaskStep.pause,
   TaskStep.resume emptyBodyFetch,
   TaskStep.progress 10 4]

/-- The task A with a user progress callback, as the `ADD` command leaves every task. -/
def watchedTask : DownloadTask := DownloadTask.setProgressCallback taskA true

/-- A transfer that delivers five bytes and then breaks with `CURLE_RECV_ERROR`. -/
def brokenFetch : Fetch :=
  { initOk := true,
    events := [FetchEvent.write [1, 2, 3, 4, 5] true true],
    result := 56, responseCode := 0 }

/-- The task A after a first `start()` that failed after five bytes. -/
def failedRun : Process × DownloadTask × Bool :=
  DownloadTask.start (Process.fresh emptyDisk) taskA brokenFetch

/-- The watched task after a `start()` whose transfer was cancelled and aborted. -/
def cancelledRun : Process × DownloadTask × Bool :=
  DownloadTask.start (Process.fresh emptyDisk) watchedTask cancelledFetch

/-- The same task after a second `start()`. -/
def restartedRun : Process × DownloadTask × Bool :=
  DownloadTask.start cancelledRun.1 cancelledRun.2.1 (plainFetch [1, 2] 200)

/-! ## The task registry (`DownloaderCore/Downloader.{h,cpp}`) -/

/-- Value of an `int` after an arithmetic step of `std::atomic<int>`, which wraps in two's
complement. -/
def wrapInt32 (n : Int) : Int := (n + 2147483648) % 4294967296 - 2147483648

/-- Work given to `threadPool_.enqueue` by the registry: a closure that calls `start()`, or
`resume()`, on the task registered under the id. -/
inductive Job where
  | start (taskId : Int)
  | resume (taskId : Int)
deriving DecidableEq, Repr

/-- Data members of `class Downloader`.  `tasks_` lists the entries of the map in its
iteration order; `threadPool_` lists the work enqueued and not yet taken, in submission
order. -/
structure Downloader where
  tasks_ : List (Int × DownloadTask)
  nextTaskId_ : Int
  defaultTimeout_ : Int
  threadPool_ : List Job
deriving DecidableEq, Repr

namespace Downloader

/-- `Downloader::Downloader`. -/
def new : Downloader :=
  { tasks_ := [], nextTaskId_ := 0, defaultTimeout_ := 30, threadPool_ := [] }

/-- `tasks_.find(taskId)`. -/
def find : List (Int × DownloadTask) → Int → Option DownloadTask
  | [], _ => none
  | (k, t) :: rest, taskId => if k = taskId then some t else find rest taskId

/-- `tasks_[taskId] = task`: the entry under the id is replaced, or a new entry is made. -/
def assign : List (Int × DownloadTask) → Int → DownloadTask → List (Int × DownloadTask)
  | [], taskId, task => [(taskId, task)]
  | (k, t) :: rest, taskId, task =>
    if k = taskId then (k, task) :: rest else (k, t) :: assign rest taskId task

/-- `tasks_.erase(it)`. -/
def erase : List (Int × DownloadTask) → Int → List (Int × DownloadTask)
  | [], _ => []
  | (k, t) :: rest, taskId => if k = taskId then rest else (k, t) :: erase rest taskId

/-- `Downloader::getTask`. -/
def getTask (d : Downloader) (taskId : Int) : Option DownloadTask :=
  find d.tasks_ taskId

/-- `Downloader::addTask`. -/
def addTask (d : Downloader) (url outputPath : String) : Downloader × Int :=
  ({ d with nextTaskId_ := wrapInt32 (d.nextTaskId_ + 1),
            tasks_ := assign d.tasks_ d.nextTaskId_
              (DownloadTask.setTimeout (DownloadTask.new url outputPath) d.defaultTimeout_) },
    d.nextTaskId_)

/-- `Downloader::removeTask`. -/
def removeTask (d : Downloader) (taskId : Int) : Downloader × Bool :=
  match find d.tasks_ taskId with
  | none => (d, false)
  | some _ => ({ d with tasks_ := erase d.tasks_ taskId }, true)

/-- `Downloader::startTask`: the call is enqueued, its result is not awaited. -/
def startTask (d : Downloader) (taskId : Int) : Downloader × Bool :=
  match getTask d taskId with
  | none => (d, false)
  | some _ => ({ d with threadPool_ := d.threadPool_ ++ [Job.start taskId] }, true)

/-- `Downloader::pauseTask`. -/
def pauseTask (d : Downloader) (taskId : Int) : Downloader × Bool :=
  match getTask d taskId with
  | none => (d, false)
  | some task =>
    ({ d with tasks_ := assign d.tasks_ taskId (DownloadTask.pause task).1 },
      (DownloadTask.pause task).2)

/-- `Downloader::resumeTask`: the call is enqueued, its result is not awaited. -/
def resumeTask (d : Downloader) (taskId : Int) : Downloader × Bool :=
  match getTask d taskId with
  | none => (d, false)
  | some _ => ({ d with threadPool_ := d.threadPool_ ++ [Job.resume taskId] }, true)

/-- `Downloader::cancelTask`. -/
def cancelTask (d : Downloader) (taskId : Int) : Downloader × Bool :=
  match getTask d taskId with
  | none => (d, false)
  | some task =>
    ({ d with tasks_ := assign d.tasks_ taskId (DownloadTask.cancel task).1 },
      (DownloadTask.cancel task).2)

/-- `Downloader::getTaskIds`. -/
def getTaskIds (d : Downloader) : List Int :=
  d.tasks_.map Prod.fst

/-- `Downloader::startAll`. -/
def startAll (d : Downloader) : Downloader × Bool :=
  ((getTaskIds d).foldl (fun acc taskId => (startTask acc taskId).1) d, true)

/-- `Downloader::pauseAll`. -/
def pauseAll (d : Downloader) : Downloader × Bool :=
  ((getTaskIds d).foldl (fun acc taskId => (pauseTask acc taskId).1) d, true)

/-- `Downloader::resumeAll`. -/
def resumeAll (d : Downloader) : Downloader × Bool :=
  ((getTaskIds d).foldl (fun acc taskId => (resumeTask acc taskId).1) d, true)

/-- `Downloader::cancelAll`. -/
def cancelAll (d : Downloader) : Downloader × Bool :=
  ((getTaskIds d).foldl (fun acc taskId => (cancelTask acc taskId).1) d, true)

/-- `Downloader::getTaskCount`. -/
def getTaskCount (d : Downloader) : Nat :=
  d.tasks_.length

/-- `Downloader::getActiveTaskCount`. -/
def getActiveTaskCount (d : Downloader) : Nat :=
  (d.tasks_.filter (fun e =>
    e.2.status_ = Status.Downloading ∨ e.2.status_ = Status.Paused)).length

end Downloader

/-- A call of `addTask` or `removeTask`. -/
inductive RegistryOp where
  | add (url outputPath : String)
  | remove (taskId : Int)
deriving DecidableEq, Repr

namespace Downloader

/-- The registry after one call. -/
def applyOp (d : Downloader) : RegistryOp → Downloader
  | RegistryOp.add url outputPath => (addTask d url outputPath).1
  | RegistryOp.remove taskId => (removeTask d taskId).1

/-- The registry after a sequence of calls. -/
def runOps (d : Downloader) (ops : List RegistryOp) : Downloader :=
  ops.foldl applyOp d

/-- The ids returned by the `addTask` calls of a sequence, in call order. -/
def addedIds : Downloader → List RegistryOp → List Int
  | _, [] => []
  | d, RegistryOp.add url outputPath :: ops =>
    (addTask d url outputPath).2 :: addedIds (addTask d url outputPath).1 ops
  | d, RegistryOp.remove taskId :: ops => addedIds (removeTask d taskId).1 ops

/-- Number of `addTask` calls in a sequence. -/
def countAdds : List RegistryOp → Nat
  | [] => 0
  | RegistryOp.add _ _ :: ops => countAdds ops + 1
  | RegistryOp.remove _ :: ops => countAdds ops

end Downloader

/-! ## The control server (`server.cpp`) -/

/-- `INT_MAX`. -/
def INT_MAX : Int := 2147483647

/-- `INT_MIN`. -/
def INT_MIN : Int := -2147483648

/-- Line feed. -/
def charLF : Char := Char.ofNat 10

/-- Carriage return. -/
def charCR : Char := Char.ofNat 13

/-- `isspace` in the "C" locale: space, tab, line feed, vertical tab, form feed, carriage
return. -/
def isspace (c : Char) : Bool :=
  c.toNat = 32 || (9 ≤ c.toNat && c.toNat ≤ 13)

/-- `operator>>(std::istream&, std::string&)`: leading white space is skipped and the
characters up to the next white space are taken.  The result is the word (empty when the
input is exhausted) and the rest of the input. -/
def extractWord (input : List Char) : List Char × List Char :=
  ((input.dropWhile isspace).takeWhile (fun c => !isspace c),
   (input.dropWhile isspace).dropWhile (fun c => !isspace c))

/-- Value of a run of decimal digits. -/
def digitsValue (digits : List Char) : Nat :=
  digits.foldl (fun acc c => 10 * acc + (c.toNat - 48)) 0

/-- The digits `operator>>(std::istream&, int&)` reads: after white space and an optional
sign, the longest run of decimal digits.  The result is whether a minus sign was read and
the digits. -/
def scanInt (input : List Char) : Bool × List Char :=
  match input.dropWhile isspace with
  | c :: rest =>
    if c = '-' then (true, rest.takeWhile Char.isDigit)
    else if c = '+' then (false, rest.takeWhile Char.isDigit)
    else (false, (c :: rest).takeWhile Char.isDigit)
  | [] => (false, [])

/-- `args >> taskId` for an `int`: the value stored and `args.fail()`.  Without a digit the
extraction fails and stores 0; a value outside the range of `int` fails and stores the
nearest bound.  (When the input is exhausted the source leaves `taskId` unassigned; only the
`STATUS` handler reads it then, and the model takes 0.) -/
def extractInt (input : List Char) : Int × Bool :=
  if (scanInt input).2 = [] then (0, true)
  else if (scanInt input).1 then
    (if -(digitsValue (scanInt input).2 : Int) < INT_MIN then (INT_MIN, true)
     else (-(digitsValue (scanInt input).2 : Int), false))
  else
    (if (digitsValue (scanInt input).2 : Int) > INT_MAX then (INT_MAX, true)
     else ((digitsValue (scanInt input).2 : Int), false))

/-- `DownloadServer::getStatusString`. -/
def getStatusString : Status → String
  | Status.Idle => "Idle"
  | Status.Downloading => "Downloading"
  | Status.Paused => "Paused"
  | Status.Completed => "Completed"
  | Status.Failed => "Failed"
  | Status.Cancelled => "Cancelled"

/-- Data members of `class DownloadServer` that the command handlers read or write.
`pendingTasks` and `activeThreads` are what `threadPool_.get_pending_tasks_count()` and
`threadPool_.get_active_threads_count()` return; `showProgress` is the text `operator<<`
prints for the `double` returned by `getProgress()` of a task. -/
structure DownloadServer where
  downloader_ : Downloader
  running_ : Bool
  pendingTasks : Nat
  activeThreads : Nat
  showProgress : DownloadTask → String

namespace DownloadServer

/-- Handler of `HELP`. -/
def handleHelp (srv : DownloadServer) : DownloadServer × String :=
  (srv, "Available commands: HELP, ADD, START, PAUSE, RESUME, CANCEL, LIST, STATUS, THREADS")

/-- Handler of `ADD`; the task added gets a progress callback. -/
def handleAdd (srv : DownloadServer) (args : List Char) : DownloadServer × String :=
  if (extractWord args).1 = [] ∨ (extractWord (extractWord args).2).1 = [] then
    (srv, "ERROR Usage: ADD <url> <output_path>")
  else
    let r := Downloader.addTask srv.downloader_ (String.mk (extractWord args).1)
      (String.mk (extractWord (extractWord args).2).1)
    match Downloader.getTask r.1 r.2 with
    | some task =>
      let tasks := Downloader.assign r.1.tasks_ r.2 (DownloadTask.setProgressCallback task true)
      ({ srv with downloader_ := { r.1 with tasks_ := tasks } }, "OK " ++ toString r.2)
    | none => ({ srv with downloader_ := r.1 }, "OK " ++ toString r.2)

/-- Handler of `START`. -/
def handleStart (srv : DownloadServer) (args : List Char) : DownloadServer × String :=
  if (extractInt args).2 then
    (if (Downloader.startAll srv.downloader_).2 then
      ({ srv with downloader_ := (Downloader.startAll srv.downloader_).1 },
        "OK Started all tasks")
     else
      ({ srv with downloader_ := (Downloader.startAll srv.downloader_).1 },
        "ERROR Failed to start all tasks"))
  else if (Downloader.startTask srv.downloader_ (extractInt args).1).2 then
    ({ srv with downloader_ := (Downloader.startTask srv.downloader_ (extractInt args).1).1 },
      "OK Started task " ++ toString (extractInt args).1)
  else
    ({ srv with downloader_ := (Downloader.startTask srv.downloader_ (extractInt args).1).1 },
      "ERROR Failed to start task " ++ toString (extractInt args).1)

/-- Handler of `PAUSE`. -/
def handlePause (srv : DownloadServer) (args : List Char) : DownloadServer × String :=
  if (extractInt args).2 then
    (if (Downloader.pauseAll srv.downloader_).2 then
      ({ srv with downloader_ := (Downloader.pauseAll srv.downloader_).1 },
        "OK Paused all tasks")
     else
      ({ srv with downloader_ := (Downloader.pauseAll srv.downloader_).1 },
        "ERROR Failed to pause all tasks"))
  else if (Downloader.pauseTask srv.downloader_ (extractInt args).1).2 then
    ({ srv with downloader_ := (Downloader.pauseTask srv.downloader_ (extractInt args).1).1 },
      "OK Paused task " ++ toString (extractInt args).1)
  else
    ({ srv with downloader_ := (Downloader.pauseTask srv.downloader_ (extractInt args).1).1 },
      "ERROR Failed to pause task " ++ toString (extractInt args).1)

/-- Handler of `RESUME`. -/
def handleResume (srv : DownloadServer) (args : List Char) : DownloadServer × String :=
  if (extractInt args).2 then
    (if (Downloader.resumeAll srv.downloader_).2 then
      ({ srv with downloader_ := (Downloader.resumeAll srv.downloader_).1 },
        "OK Resumed all tasks")
     else
      ({ srv with downloader_ := (Downloader.resumeAll srv.downloader_).1 },
        "ERROR Failed to resume all tasks"))
  else if (Downloader.resumeTask srv.downloader_ (extractInt args).1).2 then
    ({ srv with downloader_ := (Downloader.resumeTask srv.downloader_ (extractInt args).1).1 },
      "OK Resumed task " ++ toString (extractInt args).1)
  else
    ({ srv with downloader_ := (Downloader.resumeTask srv.downloader_ (extractInt args).1).1 },
      "ERROR Failed to resume task " ++ toString (extractInt args).1)

/-- Handler of `CANCEL`. -/
def handleCancel (srv : DownloadServer) (args : List Char) : DownloadServer × String :=
  if (extractInt args).2 then
    (if (Downloader.cancelAll srv.downloader_).2 then
      ({ srv with downloader_ := (Downloader.cancelAll srv.downloader_).1 },
        "OK Cancelled all tasks")
     else
      ({ srv with downloader_ := (Downloader.cancelAll srv.downloader_).1 },
        "ERROR Failed to cancel all tasks"))
  else if (Downloader.cancelTask srv.downloader_ (extractInt args).1).2 then
    ({ srv with downloader_ := (Downloader.cancelTask srv.downloader_ (extractInt args).1).1 },
      "OK Cancelled task " ++ toString (extractInt args).1)
  else
    ({ srv with downloader_ := (Downloader.cancelTask srv.downloader_ (extractInt args).1).1 },
      "ERROR Failed to cancel task " ++ toString (extractInt args).1)

/-- The line `LIST` prints for one id; nothing when `getTask` finds no task. -/
def listLine (d : Downloader) (taskId : Int) : String :=
  match Downloader.getTask d taskId with
  | some task =>
    "\n" ++ toString taskId ++ ": " ++ task.url_ ++ " => " ++ task.outputPath_ ++ " [" ++
      getStatusString task.status_ ++ "] " ++ toString task.downloadedSize_ ++ "/" ++
      toString task.totalSize_ ++ " bytes"
  | none => ""

/-- Handler of `LIST`. -/
def handleList (srv : DownloadServer) : DownloadServer × String :=
  if Downloader.getTaskIds srv.downloader_ = [] then (srv, "OK No tasks")
  else
    (srv, (Downloader.getTaskIds srv.downloader_).foldl
      (fun response taskId => response ++ listLine srv.downloader_ taskId)
      ("OK " ++ toString (Downloader.getTaskIds srv.downloader_).length ++ " tasks:"))

/-- Handler of `STATUS`; the id is used whether or not its extraction failed. -/
def handleStatus (srv : DownloadServer) (args : List Char) : DownloadServer × String :=
  match Downloader.getTask srv.downloader_ (extractInt args).1 with
  | none => (srv, "ERROR Task not found: " ++ toString (extractInt args).1)
  | some task =>
    (srv, "OK " ++ "URL: " ++ task.url_ ++ "\n" ++ "Output: " ++ task.outputPath_ ++ "\n" ++
      "Status: " ++ getStatusString task.status_ ++ "\n" ++
      "Progress: " ++ srv.showProgress task ++ "%\n" ++
      "Downloaded: " ++ toString task.downloadedSize_ ++ " bytes\n" ++
      "Total size: " ++ toString task.totalSize_ ++ " bytes" ++
      (if task.errorMessage_ ≠ "" then "\nError: " ++ task.errorMessage_ else ""))

/-- Handler of `THREADS`. -/
def handleThreads (srv : DownloadServer) : DownloadServer × String :=
  (srv, "OK Thread pool status:\n" ++ "- Pending tasks: " ++ toString srv.pendingTasks ++
    "\n" ++ "- Active threads: " ++ toString srv.activeThreads)

/-- `DownloadServer::processCommand`: the server after the command and the response. -/
def processCommand (srv : DownloadServer) (command : String) : DownloadServer × String :=
  if (extractWord command.data).1 = [] then (srv, "ERROR Empty command")
  else
    let cmd := String.mk ((extractWord command.data).1.map Char.toUpper)
    let args := (extractWord command.data).2
    if cmd = "HELP" then handleHelp srv
    else if cmd = "ADD" then handleAdd srv args
    else if cmd = "START" then handleStart srv args
    else if cmd = "PAUSE" then handlePause srv args
    else if cmd = "RESUME" then handleResume srv args
    else if cmd = "CANCEL" then handleCancel srv args
    else if cmd = "LIST" then handleList srv
    else if cmd = "STATUS" then handleStatus srv args
    else if cmd = "THREADS" then handleThreads srv
    else (srv, "ERROR Unknown command: " ++ cmd)

/-- `command.erase(command.find_last_not_of("\r\n") + 1)`: the trailing carriage returns and
line feeds are removed. -/
def trimNewlines (command : String) : String :=
  String.mk (command.data.reverse.dropWhile (fun c => c = charCR || c = charLF)).reverse

/-- `DownloadServer::sendToClient`: the bytes sent for a message. -/
def sendToClient (message : String) : String :=
  message ++ "\r\n"

/-- The request loop of `DownloadServer::handleClient`.  `reads` lists what the successive
`recv` calls return, ending where a call returns no byte; the result is the server
afterwards and the bytes of each `sendToClient` call made for a response, in order. -/
def handleClient : DownloadServer → List String → DownloadServer × List String
  | srv, [] => (srv, [])
  | srv, received :: reads =>
    if srv.running_ = false ∨ received = "" then (srv, [])
    else
      ((handleClient (processCommand srv (trimNewlines received)).1 reads).1,
        sendToClient (processCommand srv (trimNewlines received)).2 ::
          (handleClient (processCommand srv (trimNewlines received)).1 reads).2)

end DownloadServer

/-- A server just constructed: no task, running. -/
def freshServer : DownloadServer :=
  { downloader_ := Downloader.new, running_ := true, pendingTasks := 0, activeThreads := 4,
    showProgress := fun _ => "0" }

/-- The server after `ADD http://example.test/1k.bin /tmp/a.bin`. -/
def oneTaskServer : DownloadServer :=
  (DownloadServer.processCommand freshServer "ADD http://example.test/1k.bin /tmp/a.bin").1

/-- The server after `ADD ...` and `CANCEL 0`: its only task is Cancelled. -/
def cancelledServer : DownloadServer :=
  (DownloadServer.processCommand oneTaskServer "CANCEL 0").1

/-! ## Responses and progress frames -/

/-- Number of line feeds in a text, that is, of lines that follow its first line. -/
def countLF (text : String) : Nat :=
  text.data.count charLF

/-- Whether every line of the text ends with CR LF: each line feed comes right after a
carriage return and nothing follows the last line feed.  `previous` is the character before
the text, `charLF` at the start. -/
def linesEndCRLF : Char → List Char → Bool
  | previous, [] => previous = charLF
  | previous, c :: rest =>
    (if c = charLF then decide (previous = charCR) else true) && linesEndCRLF c rest

/-- The `progressReporter` closure of `DownloadServer::handleClient`: the message handed to
`sendToClient`, `none` when `total` is 0 and nothing is sent.  The product is a `size_t`
product and the quotient is converted to `int`. -/
def progressReporter (taskId : Int) (downloaded total : Nat) : Option String :=
  if total > 0 then
    some ("PROGRESS " ++ (toString taskId ++ ":" ++
      toString (wrapInt32 ((((downloaded * 100) % SIZE_MOD) / total : Nat) : Int)) ++ "%"))
  else none

/-- The white-space separated words of a text, in order; `current` holds the characters of
the word being read, last one first. -/
def splitWords : List Char → List Char → List (List Char)
  | [], current => if current = [] then [] else [current.reverse]
  | c :: rest, current =>
    if isspace c then
      (if current = [] then splitWords rest [] else current.reverse :: splitWords rest [])
    else splitWords rest (c :: current)

/-- The names of the nine commands registered by `registerCommands`. -/
def commandNames : List String :=
  ["HELP", "ADD", "START", "PAUSE", "RESUME", "CANCEL", "LIST", "STATUS", "THREADS"]

/-! ## The worker pool (`ThreadPool/ThreadPool.{h,cpp}`) -/

/-- Data members of `class ThreadPool` that hold work: one queue per worker, oldest item
first, and the stop flag.  `α` is the type of a unit of work. -/
structure ThreadPool (α : Type) where
  task_queues : List (List α)
  stop : Bool

namespace ThreadPool

variable {α : Type}

/-- `ThreadPool::ThreadPool(numThreads)`: `numThreads` empty queues. -/
def new (numThreads : Nat) : ThreadPool α :=
  { task_queues := List.replicate numThreads [], stop := false }

/-- `task_queues[index].tasks.emplace(work)`: the work goes to the tail of the queue. -/
def pushAt : List (List α) → Nat → α → List (List α)
  | [], _, _ => []
  | queue :: queues, 0, work => (queue ++ [work]) :: queues
  | queue :: queues, index + 1, work => queue :: pushAt queues index work

/-- `task_queues[index].tasks.pop()`: the front of the queue is removed. -/
def popAt : List (List α) → Nat → List (List α)
  | [], _ => []
  | queue :: queues, 0 => queue.tail :: queues
  | queue :: queues, index + 1 => queue :: popAt queues index

/-- `task_queues[index].tasks.front()`, `none` when the queue is empty. -/
def frontAt (queues : List (List α)) (index : Nat) : Option α :=
  (queues.getD index []).head?

/-- `ThreadPool::enqueue`; `callerHash` is `std::hash` of the id of the calling thread.  With
no queue the remainder `% task_queues.size()` divides by zero and the call has no defined
result: `none`. -/
def enqueue (pool : ThreadPool α) (callerHash : Nat) (work : α) : Option (ThreadPool α) :=
  if pool.task_queues.length = 0 then none
  else
    some (ThreadPool.mk
      (pushAt pool.task_queues (callerHash % pool.task_queues.length) work) pool.stop)

/-- `ThreadPool::get_pending_tasks_count`. -/
def get_pending_tasks_count (pool : ThreadPool α) : Nat :=
  (pool.task_queues.map List.length).sum

/-- `ThreadPool::steal_task`: the pool afterwards and the work taken, if any. -/
def steal_task (pool : ThreadPool α) (victim_index : Nat) : ThreadPool α × Option α :=
  match frontAt pool.task_queues victim_index with
  | some work => ({ pool with task_queues := popAt pool.task_queues victim_index }, some work)
  | none => (pool, none)

/-- One iteration of the loop of `ThreadPool::worker_loop(index)`, entered with the stop flag
clear; `victim_index` is the draw of the random generator.  The result is the pool
afterwards, the work the worker runs, if any, and whether the worker waits on its condition
variable. -/
def worker_loop (pool : ThreadPool α) (index victim_index : Nat) :
    ThreadPool α × Option α × Bool :=
  match frontAt pool.task_queues index with
  | some work => ({ pool with task_queues := popAt pool.task_queues index }, some work, false)
  | none =>
    if victim_index ≠ index then
      (match (steal_task pool victim_index).2 with
       | some work => ((steal_task pool victim_index).1, some work, false)
       | none => ((steal_task pool victim_index).1, none, true))
    else (pool, none, true)

end ThreadPool

/-! ## Server start-up (`server.cpp`, `main` and the constructor) -/

/-- `std::stoi`: the value, `none` when it throws (no digit, or a value outside `int`). -/
def stoi (text : String) : Option Int :=
  if (extractInt text.data).2 then none else some (extractInt text.data).1

/-- The argument loop of `main`: `argv[1..]` is read from left to right, `--port` and
`--threads` each take the next argument as their value, everything else is skipped.  The
result is the port and `threadPoolSize` (a `size_t`), `none` when `std::stoi` throws. -/
def parseArguments : List String → Int × Nat → Option (Int × Nat)
  | [], settings => some settings
  | [_], settings => some settings
  | arg :: value :: rest, settings =>
    if arg = "--port" then
      (match stoi value with
       | some n => parseArguments rest (n, settings.2)
       | none => none)
    else if arg = "--threads" then
      (match stoi value with
       | some n => parseArguments rest (settings.1, (n % (SIZE_MOD : Int)).toNat)
       | none => none)
    else parseArguments (value :: rest) settings

/-- The settings `main` passes to the constructor of the server. -/
def mainSettings (arguments : List String) : Option (Int × Nat) :=
  parseArguments arguments (10280, 8)

namespace DownloadServer

/-- The pool `threadPool_` of the server, which runs the client connections. -/
def connectionPool (threadPoolSize : Nat) : ThreadPool Nat :=
  ThreadPool.new threadPoolSize

/-- The pool of the `Downloader` the server constructs, built with
`std::max(size_t(1), threadPoolSize / 2)` workers. -/
def downloadPool (threadPoolSize : Nat) : ThreadPool Job :=
  ThreadPool.new (max 1 (threadPoolSize / 2))

end DownloadServer

/-! ## The chunked downloader (`src/Downloader/Downloader.cpp`) -/

namespace ChunkDownloader

/-- `chunkSize` of `Downloader::startDownload`. -/
def chunkSize (fileSize totalChunks : Nat) : Nat :=
  fileSize / totalChunks

/-- `start` of the chunk `idx`. -/
def chunkStart (fileSize totalChunks idx : Nat) : Nat :=
  (idx * chunkSize fileSize totalChunks) % SIZE_MOD

/-- `end` of the chunk `idx`; the subtractions are `size_t` subtractions. -/
def chunkEnd (fileSize totalChunks idx : Nat) : Nat :=
  if idx + 1 = totalChunks then (fileSize + SIZE_MOD - 1) % SIZE_MOD
  else
    (chunkStart fileSize totalChunks idx + chunkSize fileSize totalChunks + SIZE_MOD - 1)
      % SIZE_MOD

/-- The string given to `CURLOPT_RANGE` for the chunk `idx`. -/
def chunkRange (fileSize totalChunks idx : Nat) : String :=
  toString (chunkStart fileSize totalChunks idx) ++ "-" ++
    toString (chunkEnd fileSize totalChunks idx)

/-- The ranges requested by the `totalChunks` chunks of one download, first and last byte
of each. -/
def chunkRanges (fileSize totalChunks : Nat) : List (Nat × Nat) :=
  (List.range totalChunks).map
    (fun idx => (chunkStart fileSize totalChunks idx, chunkEnd fileSize totalChunks idx))

end ChunkDownloader

/-- The bytes sent for `LIST` by the server that holds one task. -/
def listBytes : String :=
  DownloadServer.sendToClient (DownloadServer.processCommand oneTaskServer "LIST").2

/-- A pool of three queues. -/
def threePool : ThreadPool Nat :=
  { task_queues := [[1, 2], [], [3]], stop := false }

/-- The server after `n` commands `ADD u o` sent to a server just constructed. -/
def addedServer (n : Nat) : DownloadServer :=
  (fun srv => (DownloadServer.processCommand srv "ADD u o").1)^[n] freshServer

/-! ## Lemmas on the callbacks and the transfer loop -/

namespace DownloadTask

theorem onWriteData_status (p : Process) (t : DownloadTask) (data : List Nat) (o w : Bool) :
    (onWriteData p t data o w).2.1.status_ = t.status_ := by
  unfold onWriteData
  split
  · rfl
  · split <;> (repeat (split <;> try rfl))

theorem onProgress_status (p : Process) (t : DownloadTask) (a b : Nat) :
    (onProgress p t a b).2.1.status_ = t.status_ := by
  unfold onProgress
  split <;> rfl

theorem onWriteData_requests (p : Process) (t : DownloadTask) (data : List Nat) (o w : Bool) :
    (onWriteData p t data o w).1.requests = p.requests := by
  unfold onWriteData
  split
  · rfl
  · split <;> (repeat (split <;> try rfl))

theorem onProgress_requests (p : Process) (t : DownloadTask) (a b : Nat) :
    (onProgress p t a b).1.requests = p.requests := by
  unfold onProgress
  split
  · rfl
  · dsimp only
    split <;> rfl

theorem pause_inFlight (t : DownloadTask) (h : InFlight t.status_) :
    InFlight (pause t).1.status_ := by
  unfold pause
  split
  · exact h
  · exact Or.inr (Or.inl rfl)

theorem deliver_inFlight (es : List FetchEvent) (p : Process) (t : DownloadTask)
    (h : InFlight t.status_) : InFlight (deliver p t es).2.1.status_ := by
  induction es generalizing p t with
  | nil => simpa [deliver] using h
  | cons e es ih =>
    cases e with
    | write data o w =>
      simp only [deliver]
      split
      · simpa [onWriteData_status] using h
      · exact ih _ _ (by simpa [onWriteData_status] using h)
    | progress a b =>
      simp only [deliver]
      split
      · simpa [onProgress_status] using h
      · exact ih _ _ (by simpa [onProgress_status] using h)
    | pause =>
      simp only [deliver]
      exact ih _ _ (pause_inFlight t h)
    | cancel =>
      simp only [deliver]
      exact ih _ _ (Or.inr (Or.inr rfl))

theorem deliver_requests (es : List FetchEvent) (p : Process) (t : DownloadTask) :
    (deliver p t es).1.requests = p.requests := by
  induction es generalizing p t with
  | nil => simp [deliver]
  | cons e es ih =>
    cases e with
    | write data o w =>
      simp only [deliver]
      split
      · exact onWriteData_requests _ _ _ _ _
      · rw [ih, onWriteData_requests]
    | progress a b =>
      simp only [deliver]
      split
      · exact onProgress_requests _ _ _ _
      · rw [ih, onProgress_requests]
    | pause => simp only [deliver]; exact ih _ _
    | cancel => simp only [deliver]; exact ih _ _

theorem performDownload_true_iff (p : Process) (t : DownloadTask) (f : Fetch) (h : CurlHandle)
    (hh : t.curlHandle_ = some h) :
    ((performDownload p t f).2.2 = true ↔
      (curl_easy_perform h p { t with status_ := Status.Downloading } f).2.2 = CURLE_OK ∧
      (curl_easy_perform h p { t with status_ := Status.Downloading } f).2.1.cancelRequested_
        = false ∧
      (f.responseCode = 200 ∨ f.responseCode = 206)) ∧
    ((performDownload p t f).2.2 = true ↔
      (performDownload p t f).2.1.status_ = Status.Completed) := by
  have hst : (curl_easy_perform h p { t with status_ := Status.Downloading } f).2.1.status_
      ≠ Status.Completed := by
    have hfl := deliver_inFlight f.events { p with requests := p.requests ++ [h] }
      { t with status_ := Status.Downloading } (Or.inl rfl)
    unfold curl_easy_perform
    dsimp only
    rcases hfl with h1 | h1 | h1 <;> simp [h1]
  unfold performDownload
  split
  · rename_i hn
    rw [hh] at hn
    cases hn
  · rename_i h0 hs
    rw [hh] at hs
    cases hs
    generalize curl_easy_perform h p { t with status_ := Status.Downloading } f = r at hst ⊢
    obtain ⟨p1, t1, res⟩ := r
    simp only at hst ⊢
    by_cases h1 : res = CURLE_OK <;> by_cases h2 : t1.cancelRequested_ = true <;>
      by_cases h3 : f.responseCode = 200 <;> by_cases h4 : f.responseCode = 206 <;>
      simp [h1, h2, h3, h4, hst]

theorem start_eq_performDownload (p : Process) (t : DownloadTask) (f : Fetch)
    (h : t.status_ = Status.Idle ∨ t.status_ = Status.Failed) (hi : f.initOk = true) :
    start p t f = performDownload p
      { t with curlHandle_ := some (CurlHandle.mk t.url_ t.timeout_ (rangeOption t)),
               cancelRequested_ := false, errorMessage_ := "" } f := by
  have hg : ¬ (t.status_ ≠ Status.Idle ∧ t.status_ ≠ Status.Failed) := by
    rcases h with h | h <;> simp [h]
  simp only [start, hg, setupCurl, cleanup, hi]
  rfl

theorem deliver_append (es1 es2 : List FetchEvent) (p : Process) (t : DownloadTask) :
    deliver p t (es1 ++ es2) =
      if (deliver p t es1).2.2 = none then
        deliver (deliver p t es1).1 (deliver p t es1).2.1 es2
      else deliver p t es1 := by
  induction es1 generalizing p t with
  | nil => simp [deliver]
  | cons e es ih =>
    cases e with
    | write data o w =>
      simp only [List.cons_append, deliver]
      split
      · simp
      · exact ih _ _
    | progress a b =>
      simp only [List.cons_append, deliver]
      split
      · simp
      · exact ih _ _
    | pause => simp only [List.cons_append, deliver]; exact ih _ _
    | cancel => simp only [List.cons_append, deliver]; exact ih _ _

theorem deliver_abort_code (es : List FetchEvent) (p : Process) (t : DownloadTask) (c : Nat)
    (h : (deliver p t es).2.2 = some c) : c ≠ CURLE_OK := by
  induction es generalizing p t with
  | nil => simp [deliver] at h
  | cons e es ih =>
    cases e with
    | write data o w =>
      simp only [deliver] at h
      split at h
      · simp only [Option.some.injEq] at h
        subst h
        decide
      · exact ih _ _ h
    | progress a b =>
      simp only [deliver] at h
      split at h
      · simp only [Option.some.injEq] at h
        subst h
        decide
      · exact ih _ _ h
    | pause => simp only [deliver] at h; exact ih _ _ h
    | cancel => simp only [deliver] at h; exact ih _ _ h

theorem performDownload_eq (p : Process) (t : DownloadTask) (f : Fetch) (h : CurlHandle)
    (hh : t.curlHandle_ = some h) :
    performDownload p t f =
      if (curl_easy_perform h p { t with status_ := Status.Downloading } f).2.2 ≠ CURLE_OK then
        ((curl_easy_perform h p { t with status_ := Status.Downloading } f).1,
          { (curl_easy_perform h p { t with status_ := Status.Downloading } f).2.1 with
            status_ := Status.Failed,
            errorMessage_ := curl_easy_strerror
              (curl_easy_perform h p { t with status_ := Status.Downloading } f).2.2 },
          false)
      else if (curl_easy_perform h p { t with status_ := Status.Downloading } f).2.1.cancelRequested_
      then
        ((curl_easy_perform h p { t with status_ := Status.Downloading } f).1,
          (curl_easy_perform h p { t with status_ := Status.Downloading } f).2.1, false)
      else if f.responseCode ≠ 200 ∧ f.responseCode ≠ 206 then
        ((curl_easy_perform h p { t with status_ := Status.Downloading } f).1,
          { (curl_easy_perform h p { t with status_ := Status.Downloading } f).2.1 with
            status_ := Status.Failed,
            errorMessage_ := "HTTP error: " ++ toString f.responseCode }, false)
      else
        ((curl_easy_perform h p { t with status_ := Status.Downloading } f).1,
          { (curl_easy_perform h p { t with status_ := Status.Downloading } f).2.1 with
            status_ := Status.Completed }, true) := by
  unfold performDownload
  split
  · rename_i hn
    rw [hh] at hn
    cases hn
  · rename_i h0 hs
    rw [hh] at hs
    cases hs
    rfl

theorem performDownload_process (p : Process) (t : DownloadTask) (f : Fetch) (h : CurlHandle)
    (hh : t.curlHandle_ = some h) :
    (performDownload p t f).1 =
      (deliver { p with requests := p.requests ++ [h] } { t with status_ := Status.Downloading }
        f.events).1 := by
  rw [performDownload_eq p t f h hh]
  split_ifs <;> rfl

theorem performDownload_some (p : Process) (t : DownloadTask) (f : Fetch) (h : CurlHandle)
    (hh : t.curlHandle_ = some h) (hr : (performDownload p t f).2.2 = true) :
    (deliver { p with requests := p.requests ++ [h] } { t with status_ := Status.Downloading }
        f.events).2.2.getD f.result = CURLE_OK ∧
    (performDownload p t f).2.1 =
      { (deliver { p with requests := p.requests ++ [h] }
          { t with status_ := Status.Downloading } f.events).2.1 with
        status_ := Status.Completed } := by
  rw [performDownload_eq p t f h hh] at hr ⊢
  split_ifs at hr ⊢ with c1 c2 c3
  · exact ⟨not_not.mp c1, rfl⟩

theorem deliver_tick (p : Process) (t : DownloadTask) (n r : Nat)
    (h : (deliver p t [FetchEvent.progress n n]).2.2.getD r = CURLE_OK) :
    (deliver p t [FetchEvent.progress n n]).2.1.downloadedSize_
      = (deliver p t [FetchEvent.progress n n]).2.1.totalSize_ := by
  simp only [deliver, onProgress] at h ⊢
  cases hc : t.cancelRequested_
  · simp
  · simp [hc, CURLE_ABORTED_BY_CALLBACK, CURLE_OK] at h

theorem deliver_last_tick (es : List FetchEvent) (p : Process) (t : DownloadTask) (n r : Nat)
    (h : (deliver p t (es ++ [FetchEvent.progress n n])).2.2.getD r = CURLE_OK) :
    (deliver p t (es ++ [FetchEvent.progress n n])).2.1.downloadedSize_
      = (deliver p t (es ++ [FetchEvent.progress n n])).2.1.totalSize_ := by
  rw [deliver_append] at h ⊢
  cases hc : (deliver p t es).2.2 with
  | none =>
    simp only [hc, if_true] at h ⊢
    exact deliver_tick _ _ n r h
  | some c =>
    simp only [hc] at h
    simp only [if_neg (Option.some_ne_none c), hc, Option.getD_some] at h
    exact absurd h (deliver_abort_code _ _ _ c hc)

theorem onProgress_ok (p : Process) (t : DownloadTask) (a b : Nat)
    (hc : t.cancelRequested_ = false) :
    onProgress p t a b =
      (if t.progressCallback_ then
          { p with callbackCalls := p.callbackCalls ++
              [((t.rangeStart_ + b) % SIZE_MOD, (t.rangeStart_ + a) % SIZE_MOD)] }
        else p,
        { t with totalSize_ := (t.rangeStart_ + a) % SIZE_MOD,
                 downloadedSize_ := (t.rangeStart_ + b) % SIZE_MOD }, 0) := by
  simp [onProgress, hc]

/-- C1: `resume()` on a Paused task stores `downloadedSize_` in `rangeStart_` and clears
`cancelRequested_`, but the `start()` it then calls is refused by the status guard of
`start()`: the call returns false whatever the transfer would have done, the status stays
Paused and no request is sent. -/
theorem resume_paused_refused (p : Process) (t : DownloadTask) (f : Fetch) :
    resume p { t with status_ := Status.Paused } f
      = (p, { t with status_ := Status.Paused, rangeStart_ := t.downloadedSize_,
                     cancelRequested_ := false }, false) := by
  simp [resume, start]

/-- C2: task A and then task B, with different output paths, each run `start()` to
completion in one process.  Both end Completed, yet the bytes of both transfers went into
the one stream, which is open on the file of A: they sit in its put area, one behind the
other, the file of A is still empty, and no file exists at the output path of B. -/
theorem second_task_writes_first_file :
    taskA.outputPath_ ≠ taskB.outputPath_ ∧
    afterA.2.1.status_ = Status.Completed ∧ afterB.2.1.status_ = Status.Completed ∧
    afterB.1.file = some taskA.outputPath_ ∧
    afterB.1.pending = [1, 2, 3, 4, 5] ∧
    afterB.1.disk taskA.outputPath_ = some [] ∧
    afterB.1.disk taskB.outputPath_ = none := by
  decide

/-- C3, as stated, fails: `cancel()` on a Completed task is no no-op, it moves the task to
Cancelled and sets `cancelRequested_`. -/
theorem cancel_changes_completed :
    afterA.2.1.status_ = Status.Completed ∧
    (cancel afterA.2.1).1.status_ = Status.Cancelled ∧
    (cancel afterA.2.1).1.cancelRequested_ ≠ afterA.2.1.cancelRequested_ ∧
    (cancel afterA.2.1).1 ≠ afterA.2.1 := by
  decide

/-- C3, amended: on a Completed or Cancelled task `start()`, `pause()` and `resume()` return
false and change nothing.  A Cancelled task whose `cancelRequested_` is set is moreover left
unchanged by `cancel()`, by a write callback (which returns 0) and by a progress tick (which
returns abort).  `cancel()` on a Completed task sets `cancelRequested_` and the status
Cancelled and keeps the other fields. -/
theorem terminal_stability (p : Process) (t : DownloadTask) (f : Fetch)
    (h : t.status_ = Status.Completed ∨ t.status_ = Status.Cancelled) :
    start p t f = (p, t, false) ∧ pause t = (t, false) ∧ resume p t f = (p, t, false) ∧
    (t.status_ = Status.Cancelled → t.cancelRequested_ = true →
      cancel t = (t, true) ∧
      (∀ data o w, onWriteData p t data o w = (p, t, 0)) ∧
      (∀ a b, onProgress p t a b = (p, t, 1))) ∧
    (t.status_ = Status.Completed →
      cancel t = ({ t with cancelRequested_ := true, status_ := Status.Cancelled }, true)) := by
  refine ⟨?_, ?_, ?_, ?_, ?_⟩
  · rcases h with h | h <;> simp [start, h]
  · rcases h with h | h <;> simp [pause, h]
  · rcases h with h | h <;> simp [resume, h]
  · intro hs hc
    refine ⟨?_, ?_, ?_⟩
    · cases t
      simp only at hs hc
      simp [cancel, hs, hc]
    · intro data o w
      simp [onWriteData, hc]
    · intro a b
      simp [onProgress, hc]
  · intro _
    rfl

/-- Witness of C3 (amended) on the task A after `cancel()`. -/
theorem terminal_stability_witness :
    start (Process.fresh emptyDisk) (cancel taskA).1 (plainFetch [1] 200)
        = (Process.fresh emptyDisk, (cancel taskA).1, false) ∧
      cancel (cancel taskA).1 = ((cancel taskA).1, true) :=
  have h := terminal_stability (Process.fresh emptyDisk) (cancel taskA).1 (plainFetch [1] 200)
    (Or.inr rfl)
  ⟨h.1, (h.2.2.2.1 rfl rfl).1⟩

/-- C4: a Downloading task is paused and the next write callback aborts the transfer, or it
is cancelled and the next progress tick aborts the transfer.  In both cases `start()` leaves
the task Failed with the message of the abort code. -/
theorem abort_after_pause_is_failed :
    (start (Process.fresh emptyDisk) taskA pausedFetch).2.1.status_ = Status.Failed ∧
    (start (Process.fresh emptyDisk) taskA pausedFetch).2.1.errorMessage_
      = "Failed writing received data to disk/application" ∧
    (start (Process.fresh emptyDisk) taskA cancelledFetch).2.1.status_ = Status.Failed ∧
    (start (Process.fresh emptyDisk) taskA cancelledFetch).2.1.errorMessage_
      = "Operation was aborted by an application callback" := by
  decide

/-- C5: for a task that is Downloading, Paused, Completed or Cancelled, `start()` returns
false and changes neither the task nor the process; in particular no request is sent. -/
theorem start_refused (p : Process) (t : DownloadTask) (f : Fetch)
    (h : t.status_ = Status.Downloading ∨ t.status_ = Status.Paused ∨
         t.status_ = Status.Completed ∨ t.status_ = Status.Cancelled) :
    start p t f = (p, t, false) ∧ (start p t f).1.requests = p.requests := by
  have hs : t.status_ ≠ Status.Idle ∧ t.status_ ≠ Status.Failed := by
    rcases h with h | h | h | h <;> simp [h]
  simp [start, hs]

/-- Witness of C5 on a paused task. -/
theorem start_refused_witness :
    start (Process.fresh emptyDisk) pausedTask (plainFetch [1] 200)
        = (Process.fresh emptyDisk, pausedTask, false) ∧
      (start (Process.fresh emptyDisk) pausedTask (plainFetch [1] 200)).1.requests
        = (Process.fresh emptyDisk).requests :=
  start_refused (Process.fresh emptyDisk) pausedTask (plainFetch [1] 200)
    (Or.inr (Or.inl rfl))

/-- C6: `pause()` returns true exactly when the status is Downloading.  When it returns true
the task differs from the one before only in `cancelRequested_`, now set, and `status_`, now
Paused; when it returns false the task is unchanged. -/
theorem pause_spec (t : DownloadTask) :
    ((pause t).2 = true ↔ t.status_ = Status.Downloading) ∧
    ((pause t).2 = true →
      (pause t).1 = { t with cancelRequested_ := true, status_ := Status.Paused } ∧
      (pause t).1.rangeStart_ = t.rangeStart_ ∧
      (pause t).1.downloadedSize_ = t.downloadedSize_ ∧
      (pause t).1.totalSize_ = t.totalSize_) ∧
    ((pause t).2 = false → (pause t).1 = t) := by
  by_cases h : t.status_ = Status.Downloading <;> simp [pause, h]

/-- Witness of C6 on the task A after it entered Downloading. -/
theorem pause_spec_witness :
    (pause { taskA with status_ := Status.Downloading }).2 = true ∧
    (pause { taskA with status_ := Status.Downloading }).1.status_ = Status.Paused ∧
    (pause { taskA with status_ := Status.Downloading }).1.cancelRequested_ = true := by
  have h := pause_spec { taskA with status_ := Status.Downloading }
  have ht : (pause { taskA with status_ := Status.Downloading }).2 = true := h.1.2 rfl
  have he := (h.2.1 ht).1
  exact ⟨ht, by rw [he], by rw [he]⟩

/-- C7: for a task in Idle or Failed, `start()` returns true exactly when `curl_easy_init`
gave a handle, `curl_easy_perform` returned `CURLE_OK`, `cancelRequested_` was not set when it
returned and the response code is 200 or 206; and it returns true exactly when the status on
return is Completed. -/
theorem start_true_iff (p : Process) (t : DownloadTask) (f : Fetch)
    (h : t.status_ = Status.Idle ∨ t.status_ = Status.Failed) :
    ((start p t f).2.2 = true ↔
      f.initOk = true ∧
      (curl_easy_perform (CurlHandle.mk t.url_ t.timeout_ (rangeOption t)) p
        { t with curlHandle_ := some (CurlHandle.mk t.url_ t.timeout_ (rangeOption t)),
                 cancelRequested_ := false, errorMessage_ := "",
                 status_ := Status.Downloading } f).2.2 = CURLE_OK ∧
      (curl_easy_perform (CurlHandle.mk t.url_ t.timeout_ (rangeOption t)) p
        { t with curlHandle_ := some (CurlHandle.mk t.url_ t.timeout_ (rangeOption t)),
                 cancelRequested_ := false, errorMessage_ := "",
                 status_ := Status.Downloading } f).2.1.cancelRequested_ = false ∧
      (f.responseCode = 200 ∨ f.responseCode = 206)) ∧
    ((start p t f).2.2 = true ↔ (start p t f).2.1.status_ = Status.Completed) := by
  have hg : ¬ (t.status_ ≠ Status.Idle ∧ t.status_ ≠ Status.Failed) := by
    rcases h with h | h <;> simp [h]
  have hne : t.status_ ≠ Status.Completed := by
    rcases h with h | h <;> simp [h]
  cases hi : f.initOk with
  | false => simp [start, hg, setupCurl, cleanup, hi, hne]
  | true =>
    have hs := start_eq_performDownload p t f h hi
    have hp := performDownload_true_iff p
      { t with curlHandle_ := some (CurlHandle.mk t.url_ t.timeout_ (rangeOption t)),
               cancelRequested_ := false, errorMessage_ := "" } f
      (CurlHandle.mk t.url_ t.timeout_ (rangeOption t)) rfl
    rw [hs]
    refine ⟨?_, hp.2⟩
    rw [hp.1]
    simp

/-- Witness of C7 on a fresh task and a transfer that succeeds. -/
theorem start_true_iff_witness :
    (taskA.status_ = Status.Idle ∨ taskA.status_ = Status.Failed) ∧
    (start (Process.fresh emptyDisk) taskA (plainFetch [1, 2] 200)).2.2 = true ∧
    ((start (Process.fresh emptyDisk) taskA (plainFetch [1, 2] 200)).2.2 = true ↔
      (start (Process.fresh emptyDisk) taskA (plainFetch [1, 2] 200)).2.1.status_
        = Status.Completed) :=
  ⟨Or.inl rfl, by decide,
    (start_true_iff (Process.fresh emptyDisk) taskA (plainFetch [1, 2] 200) (Or.inl rfl)).2⟩

/-- C8, as stated, fails: the task A, started from offset 3 against a response of unknown
length, ends Completed with `totalSize_` 3 and `downloadedSize_` 8. -/
theorem completed_sizes_differ :
    rangedRun.2.2 = true ∧ rangedRun.2.1.status_ = Status.Completed ∧
    0 < rangedRun.2.1.totalSize_ ∧
    rangedRun.2.1.totalSize_ = 3 ∧ rangedRun.2.1.downloadedSize_ = 8 := by
  decide

/-- C8, amended: when `start()` on an Idle or Failed task returns true, the task is the one
`curl_easy_perform` left with only the status replaced by Completed, so `downloadedSize_` and
`totalSize_` are as the callbacks left them; they are equal when the last event of the
transfer was a progress tick whose received count equals its total. -/
theorem completed_sizes (p : Process) (t : DownloadTask) (f : Fetch) (es : List FetchEvent)
    (n : Nat) (h : t.status_ = Status.Idle ∨ t.status_ = Status.Failed)
    (he : f.events = es ++ [FetchEvent.progress n n])
    (hr : (start p t f).2.2 = true) :
    (start p t f).2.1 =
      { (curl_easy_perform (CurlHandle.mk t.url_ t.timeout_ (rangeOption t)) p
          { t with curlHandle_ := some (CurlHandle.mk t.url_ t.timeout_ (rangeOption t)),
                   cancelRequested_ := false, errorMessage_ := "",
                   status_ := Status.Downloading } f).2.1 with
        status_ := Status.Completed } ∧
    (start p t f).2.1.downloadedSize_ = (start p t f).2.1.totalSize_ := by
  have hi : f.initOk = true := by
    cases hi : f.initOk with
    | true => rfl
    | false =>
      have hg : ¬ (t.status_ ≠ Status.Idle ∧ t.status_ ≠ Status.Failed) := by
        rcases h with h | h <;> simp [h]
      simp [start, hg, setupCurl, hi] at hr
  rw [start_eq_performDownload p t f h hi] at hr ⊢
  obtain ⟨hres, hT⟩ := performDownload_some p _ f _ rfl hr
  refine ⟨hT, ?_⟩
  rw [hT]
  rw [he] at hres ⊢
  exact deliver_last_tick es _ _ n f.result hres

/-- Witness of C8 (amended) on a fresh task and a transfer whose last tick reports 2 of 2. -/
theorem completed_sizes_witness :
    (taskA.status_ = Status.Idle ∨ taskA.status_ = Status.Failed) ∧
    (start (Process.fresh emptyDisk) taskA (plainFetch [1, 2] 200)).2.2 = true ∧
    (start (Process.fresh emptyDisk) taskA (plainFetch [1, 2] 200)).2.1.downloadedSize_
      = (start (Process.fresh emptyDisk) taskA (plainFetch [1, 2] 200)).2.1.totalSize_ :=
  ⟨Or.inl rfl, by decide,
    (completed_sizes (Process.fresh emptyDisk) taskA (plainFetch [1, 2] 200)
      [FetchEvent.write [1, 2] true true] 2 (Or.inl rfl) rfl (by decide)).2⟩

/-- C10, as stated, fails: a task with `rangeStart_` 0 and `rangeEnd_` 100 sends its request
without `CURLOPT_RANGE`, and a task with `rangeStart_` 10 and `rangeEnd_` 5 sends the range
`10-` without the end offset. -/
theorem range_end_alone_sends_no_range :
    rangeEndTask.rangeStart_ = 0 ∧ rangeEndTask.rangeEnd_ = 100 ∧
    (start (Process.fresh emptyDisk) rangeEndTask (plainFetch [1] 200)).1.requests
      = [CurlHandle.mk "http://example.test/a" 30 none] ∧
    (start (Process.fresh emptyDisk) (setRangeEnd (setRangeStart taskA 10) 5)
        (plainFetch [1] 206)).1.requests
      = [CurlHandle.mk "http://example.test/a" 30 (some "10-")] := by
  decide

/-- C10, amended: the request `start()` sends for an Idle or Failed task has `CURLOPT_RANGE`
set exactly when `rangeStart_ > 0`; its value is the decimal `rangeStart_`, a dash, and the
decimal `rangeEnd_` when `rangeEnd_ > rangeStart_`.  With `rangeStart_ = 0` no range is
sent, whatever `rangeEnd_` is. -/
theorem start_request_range (p : Process) (t : DownloadTask) (f : Fetch)
    (h : t.status_ = Status.Idle ∨ t.status_ = Status.Failed) (hi : f.initOk = true) :
    (start p t f).1.requests = p.requests ++
      [CurlHandle.mk t.url_ t.timeout_
        (if t.rangeStart_ > 0 then
          some (toString t.rangeStart_ ++ "-" ++
            (if t.rangeEnd_ > t.rangeStart_ then toString t.rangeEnd_ else ""))
         else none)] := by
  rw [start_eq_performDownload p t f h hi, performDownload_process p _ f _ rfl,
    deliver_requests]
  have hr : rangeOption t =
      (if t.rangeStart_ > 0 then
          some (toString t.rangeStart_ ++ "-" ++
            (if t.rangeEnd_ > t.rangeStart_ then toString t.rangeEnd_ else ""))
         else none) := by
    unfold rangeOption
    by_cases h0 : t.rangeStart_ > 0
    · by_cases h1 : t.rangeEnd_ > t.rangeStart_
      · have h2 : t.rangeEnd_ > 0 := by omega
        simp [h0, h1, h2]
      · simp [h0, h1]
    · simp [h0]
  simp only [hr]

/-- Witness of C10 (amended) on a task asked to fetch bytes 10 to 20. -/
theorem start_request_range_witness :
    ((setRangeEnd (setRangeStart taskA 10) 20).status_ = Status.Idle ∨
     (setRangeEnd (setRangeStart taskA 10) 20).status_ = Status.Failed) ∧
    (plainFetch [1] 206).initOk = true ∧
    (start (Process.fresh emptyDisk) (setRangeEnd (setRangeStart taskA 10) 20)
        (plainFetch [1] 206)).1.requests
      = [CurlHandle.mk "http://example.test/a" 30 (some "10-20")] :=
  ⟨Or.inl rfl, rfl,
    (start_request_range (Process.fresh emptyDisk) (setRangeEnd (setRangeStart taskA 10) 20)
      (plainFetch [1] 206) (Or.inl rfl) rfl).trans (by decide)⟩

end DownloadTask

/-! ## Lemmas on histories -/

namespace DownloadTask

theorem onWriteData_rangeStart (p : Process) (t : DownloadTask) (data : List Nat) (o w : Bool) :
    (onWriteData p t data o w).2.1.rangeStart_ = t.rangeStart_ := by
  unfold onWriteData
  split
  · rfl
  · split <;> (repeat (split <;> try rfl))

theorem onProgress_rangeStart (p : Process) (t : DownloadTask) (a b : Nat) :
    (onProgress p t a b).2.1.rangeStart_ = t.rangeStart_ := by
  unfold onProgress
  split <;> rfl

theorem pause_rangeStart (t : DownloadTask) : (pause t).1.rangeStart_ = t.rangeStart_ := by
  unfold pause
  split <;> rfl

theorem deliver_rangeStart (es : List FetchEvent) (p : Process) (t : DownloadTask) :
    (deliver p t es).2.1.rangeStart_ = t.rangeStart_ := by
  induction es generalizing p t with
  | nil => simp [deliver]
  | cons e es ih =>
    cases e with
    | write data o w =>
      simp only [deliver]
      split
      · exact onWriteData_rangeStart _ _ _ _ _
      · rw [ih, onWriteData_rangeStart]
    | progress a b =>
      simp only [deliver]
      split
      · exact onProgress_rangeStart _ _ _ _
      · rw [ih, onProgress_rangeStart]
    | pause => simp only [deliver]; rw [ih, pause_rangeStart]
    | cancel => simp only [deliver]; rw [ih]; rfl

theorem performDownload_rangeStart (p : Process) (t : DownloadTask) (f : Fetch) :
    (performDownload p t f).2.1.rangeStart_ = t.rangeStart_ := by
  cases hh : t.curlHandle_ with
  | none => simp [performDownload, hh]
  | some h =>
    rw [performDownload_eq p t f h hh]
    have hd := deliver_rangeStart f.events { p with requests := p.requests ++ [h] }
      { t with status_ := Status.Downloading }
    split_ifs <;> exact hd

theorem start_rangeStart (p : Process) (t : DownloadTask) (f : Fetch) :
    (start p t f).2.1.rangeStart_ = t.rangeStart_ := by
  unfold start
  split
  · rfl
  · dsimp only
    split
    · simp only [setupCurl, cleanup]
      split <;> rfl
    · rw [performDownload_rangeStart]
      simp only [setupCurl, cleanup]
      split <;> rfl

theorem start_of_guard (p : Process) (t : DownloadTask) (f : Fetch)
    (hg : t.status_ ≠ Status.Idle ∧ t.status_ ≠ Status.Failed) : start p t f = (p, t, false) := by
  unfold start
  rw [if_pos hg]

theorem applyOp_rangeInv (s : Process × DownloadTask) (op : TaskOp) (h : RangeInv s.2) :
    RangeInv (applyOp s op).2 := by
  cases op with
  | start f =>
    simp only [applyOp]
    rcases h with h0 | ⟨hd, hs⟩
    · exact Or.inl (by rw [start_rangeStart]; exact h0)
    · have hg : s.2.status_ ≠ Status.Idle ∧ s.2.status_ ≠ Status.Failed := by
        rcases hs with hs | hs <;> simp [hs]
      rw [start_of_guard _ _ _ hg]
      exact Or.inr ⟨hd, hs⟩
  | pause =>
    simp only [applyOp, pause]
    split
    · exact h
    · rename_i hdl
      rcases h with h0 | ⟨hd, hs⟩
      · exact Or.inl h0
      · exact Or.inr ⟨hd, Or.inl rfl⟩
  | resume f =>
    simp only [applyOp, resume]
    split
    · exact h
    · rename_i hp
      have hp2 : s.2.status_ = Status.Paused := not_not.mp hp
      rw [start_of_guard _ _ _ (by simp [hp2])]
      exact Or.inr ⟨rfl, Or.inl hp2⟩
  | cancel =>
    simp only [applyOp, cancel]
    rcases h with h0 | ⟨hd, hs⟩
    · exact Or.inl h0
    · exact Or.inr ⟨hd, Or.inr rfl⟩

theorem runOps_rangeInv (ops : List TaskOp) (s : Process × DownloadTask) (h : RangeInv s.2) :
    RangeInv (runOps s ops).2 := by
  induction ops generalizing s with
  | nil => exact h
  | cons op ops ih => exact ih _ (applyOp_rangeInv s op h)

theorem rangeInv_le (t : DownloadTask) (h : RangeInv t) : t.rangeStart_ ≤ t.downloadedSize_ := by
  rcases h with h0 | ⟨hd, _⟩
  · rw [h0]; exact Nat.zero_le _
  · rw [hd]

theorem inFlightState_le (s : Process × DownloadTask) (es : List FetchEvent)
    (h : RangeInv s.2) :
    (inFlightState s es).2.rangeStart_ ≤ (inFlightState s es).2.downloadedSize_ := by
  unfold inFlightState
  split
  · exact rangeInv_le _ h
  · rename_i hg
    have h0 : s.2.rangeStart_ = 0 := by
      rcases h with h0 | ⟨_, hs⟩
      · exact h0
      · exfalso
        apply hg
        rcases hs with hs | hs <;> simp [hs]
    dsimp only
    rw [deliver_rangeStart]
    dsimp only
    rw [h0]
    exact Nat.zero_le _

end DownloadTask

/-! ## The claims on the callbacks and on histories -/

namespace DownloadTask

/-- C11: a progress tick returns abort (non-zero) exactly when `cancelRequested_` is set, and
then changes nothing.  Otherwise it stores `rangeStart_ + dltotal` in `totalSize_` and
`rangeStart_ + dlnow` in `downloadedSize_` (sums of `size_t`, so modulo `2 ^ 64`, the plain
sums when they fit), leaves the other fields alone and calls the user callback, if one is
set, exactly once with the new `(downloadedSize_, totalSize_)`. -/
theorem onProgress_spec (p : Process) (t : DownloadTask) (dltotal dlnow : Nat) :
    ((onProgress p t dltotal dlnow).2.2 ≠ 0 ↔ t.cancelRequested_ = true) ∧
    (t.cancelRequested_ = true →
      (onProgress p t dltotal dlnow).1 = p ∧ (onProgress p t dltotal dlnow).2.1 = t) ∧
    (t.cancelRequested_ = false →
      (onProgress p t dltotal dlnow).2.1 =
        { t with totalSize_ := (t.rangeStart_ + dltotal) % SIZE_MOD,
                 downloadedSize_ := (t.rangeStart_ + dlnow) % SIZE_MOD } ∧
      (t.rangeStart_ + dltotal < SIZE_MOD →
        (onProgress p t dltotal dlnow).2.1.totalSize_ = t.rangeStart_ + dltotal) ∧
      (t.rangeStart_ + dlnow < SIZE_MOD →
        (onProgress p t dltotal dlnow).2.1.downloadedSize_ = t.rangeStart_ + dlnow) ∧
      (t.progressCallback_ = true →
        (onProgress p t dltotal dlnow).1.callbackCalls = p.callbackCalls ++
          [((onProgress p t dltotal dlnow).2.1.downloadedSize_,
            (onProgress p t dltotal dlnow).2.1.totalSize_)]) ∧
      (t.progressCallback_ = false →
        (onProgress p t dltotal dlnow).1.callbackCalls = p.callbackCalls)) := by
  by_cases hc : t.cancelRequested_ = true
  · simp [onProgress, hc]
  · have hc2 : t.cancelRequested_ = false := by simpa using hc
    refine ⟨by simp [onProgress, hc2], fun h => absurd h hc, fun _ => ?_⟩
    rw [onProgress_ok p t dltotal dlnow hc2]
    refine ⟨rfl, fun h => Nat.mod_eq_of_lt h, fun h => Nat.mod_eq_of_lt h, ?_, ?_⟩
    · intro hp
      simp [hp]
    · intro hp
      simp [hp]

/-- Witness of C11: a tick reporting 4 of 10 bytes on the watched task. -/
theorem onProgress_spec_witness :
    (onProgress (Process.fresh emptyDisk) watchedTask 10 4).2.2 = 0 ∧
    (onProgress (Process.fresh emptyDisk) watchedTask 10 4).2.1.totalSize_ = 10 ∧
    (onProgress (Process.fresh emptyDisk) watchedTask 10 4).2.1.downloadedSize_ = 4 ∧
    (onProgress (Process.fresh emptyDisk) watchedTask 10 4).1.callbackCalls = [(4, 10)] := by
  have h := (onProgress_spec (Process.fresh emptyDisk) watchedTask 10 4).2.2 rfl
  refine ⟨by decide, h.2.1 (by decide), h.2.2.1 (by decide), ?_⟩
  rw [h.2.2.2.1 rfl, h.2.1 (by decide), h.2.2.1 (by decide)]
  rfl

/-- C12: task A ran to completion, which left the shared output stream open on its file,
with the two bytes of A in its put area.  The write callback of task B, offered three bytes
with `cancelRequested_` clear, returns 3 and adds 3 to `downloadedSize_`, but the bytes go
into that stream, behind the bytes of A: the stream stays open on the file of A and no file
appears at the output path of B. -/
theorem write_goes_to_open_stream :
    taskB.cancelRequested_ = false ∧
    (onWriteData afterA.1 taskB [3, 4, 5] true true).2.2 = 3 ∧
    (onWriteData afterA.1 taskB [3, 4, 5] true true).2.1.downloadedSize_
      = taskB.downloadedSize_ + 3 ∧
    afterA.1.file = some taskA.outputPath_ ∧ afterA.1.pending = [1, 2] ∧
    afterA.1.disk taskB.outputPath_ = none ∧
    (onWriteData afterA.1 taskB [3, 4, 5] true true).1.disk taskB.outputPath_ = none ∧
    (onWriteData afterA.1 taskB [3, 4, 5] true true).1.file = some taskA.outputPath_ ∧
    (onWriteData afterA.1 taskB [3, 4, 5] true true).1.pending = [1, 2, 3, 4, 5] := by
  decide

/-- Along every history of a freshly constructed task made of whole `start`, `pause`,
`resume` and `cancel` calls, one after the other, with the write callbacks and progress ticks
of their transfers, `downloadedSize_ ≥ rangeStart_` holds after every call and after every
event delivered inside a transfer.  Here no hook runs with `rangeStart_ > 0`, so no condition
on the sizes is needed; `resume()` calls that arrive during a transfer are the matter of the
interleaved histories below. -/
theorem downloaded_ge_rangeStart (p : Process) (url outputPath : String) (ops : List TaskOp)
    (es : List FetchEvent) :
    (runOps (p, new url outputPath) ops).2.rangeStart_
      ≤ (runOps (p, new url outputPath) ops).2.downloadedSize_ ∧
    (inFlightState (runOps (p, new url outputPath) ops) es).2.rangeStart_
      ≤ (inFlightState (runOps (p, new url outputPath) ops) es).2.downloadedSize_ := by
  have h := runOps_rangeInv ops (p, new url outputPath) (Or.inl rfl)
  exact ⟨rangeInv_le _ h, inFlightState_le _ es h⟩

theorem enterStart_sizes (t : DownloadTask) (initOk : Bool) :
    (enterStart t initOk).1.rangeStart_ = t.rangeStart_ ∧
    (enterStart t initOk).1.downloadedSize_ = t.downloadedSize_ := by
  unfold enterStart
  split
  · exact ⟨rfl, rfl⟩
  · dsimp only
    split
    · simp only [setupCurl, cleanup]
      split <;> exact ⟨rfl, rfl⟩
    · split <;> (simp only [setupCurl, cleanup]; split <;> exact ⟨rfl, rfl⟩)

theorem leaveStart_sizes (t : DownloadTask) (res : Nat) (responseCode : Int) :
    (leaveStart t res responseCode).1.rangeStart_ = t.rangeStart_ ∧
    (leaveStart t res responseCode).1.downloadedSize_ = t.downloadedSize_ := by
  unfold leaveStart
  split_ifs <;> exact ⟨rfl, rfl⟩

theorem onWriteData_downloaded (p : Process) (t : DownloadTask) (data : List Nat)
    (o w : Bool) :
    (onWriteData p t data o w).2.1.downloadedSize_ = t.downloadedSize_ ∨
    (onWriteData p t data o w).2.1.downloadedSize_
      = (t.downloadedSize_ + data.length) % SIZE_MOD := by
  unfold onWriteData
  split
  · exact Or.inl rfl
  · split <;> (repeat' split) <;> first | exact Or.inl rfl | exact Or.inr rfl

theorem onProgress_downloaded (p : Process) (t : DownloadTask) (a b : Nat) :
    (onProgress p t a b).2.1.downloadedSize_ = t.downloadedSize_ ∨
    (onProgress p t a b).2.1.downloadedSize_ = (t.rangeStart_ + b) % SIZE_MOD := by
  unfold onProgress
  split
  · exact Or.inl rfl
  · exact Or.inr rfl

theorem applyStep_le (s : Process × DownloadTask) (step : TaskStep)
    (hinv : s.2.rangeStart_ ≤ s.2.downloadedSize_) (hfit : stepFits s.2 step = true) :
    (applyStep s step).2.rangeStart_ ≤ (applyStep s step).2.downloadedSize_ := by
  cases step with
  | enterStart initOk =>
    simp only [applyStep]
    rw [(enterStart_sizes s.2 initOk).1, (enterStart_sizes s.2 initOk).2]
    exact hinv
  | write data o w =>
    simp only [stepFits, decide_eq_true_eq] at hfit
    simp only [applyStep]
    rw [onWriteData_rangeStart]
    rcases onWriteData_downloaded s.1 s.2 data o w with h | h
    · rw [h]
      exact hinv
    · rw [h, Nat.mod_eq_of_lt hfit]
      omega
  | progress a b =>
    simp only [stepFits, decide_eq_true_eq] at hfit
    simp only [applyStep]
    rw [onProgress_rangeStart]
    rcases onProgress_downloaded s.1 s.2 a b with h | h
    · rw [h]
      exact hinv
    · rw [h, Nat.mod_eq_of_lt hfit]
      omega
  | leaveStart res responseCode =>
    simp only [applyStep]
    rw [(leaveStart_sizes s.2 res responseCode).1, (leaveStart_sizes s.2 res responseCode).2]
    exact hinv
  | pause =>
    simp only [applyStep, pause]
    split
    · exact hinv
    · exact hinv
  | resume f =>
    simp only [applyStep, resume]
    split
    · exact hinv
    · rename_i hp
      have hp2 : s.2.status_ = Status.Paused := not_not.mp hp
      rw [start_of_guard _ _ _ (by simp [hp2])]
  | cancel =>
    simp only [applyStep, cancel]
    exact hinv

theorem runSteps_le (steps : List TaskStep) (s : Process × DownloadTask)
    (hinv : s.2.rangeStart_ ≤ s.2.downloadedSize_) (hfit : stepsFit s steps = true) :
    (runSteps s steps).2.rangeStart_ ≤ (runSteps s steps).2.downloadedSize_ := by
  induction steps generalizing s with
  | nil => exact hinv
  | cons step steps ih =>
    simp only [stepsFit, Bool.and_eq_true] at hfit
    exact ih _ (applyStep_le s step hinv hfit.1) hfit.2

theorem stepsFit_take (steps : List TaskStep) (s : Process × DownloadTask) (k : Nat)
    (hfit : stepsFit s steps = true) : stepsFit s (steps.take k) = true := by
  induction steps generalizing s k with
  | nil => simp [stepsFit]
  | cons step steps ih =>
    cases k with
    | zero => simp [stepsFit]
    | succ k =>
      simp only [stepsFit, Bool.and_eq_true, List.take_succ_cons] at hfit ⊢
      exact ⟨hfit.1, ih _ k hfit.2⟩

theorem deliver_eq_runSteps (es : List FetchEvent) (p : Process) (t : DownloadTask) :
    ∃ k, ((deliver p t es).1, (deliver p t es).2.1)
      = runSteps (p, t) ((es.take k).map FetchEvent.toStep) := by
  induction es generalizing p t with
  | nil => exact ⟨0, rfl⟩
  | cons e es ih =>
    cases e with
    | write data o w =>
      simp only [deliver]
      split
      · exact ⟨1, rfl⟩
      · obtain ⟨k, hk⟩ := ih (onWriteData p t data o w).1 (onWriteData p t data o w).2.1
        exact ⟨k + 1, hk⟩
    | progress a b =>
      simp only [deliver]
      split
      · exact ⟨1, rfl⟩
      · obtain ⟨k, hk⟩ := ih (onProgress p t a b).1 (onProgress p t a b).2.1
        exact ⟨k + 1, hk⟩
    | pause =>
      obtain ⟨k, hk⟩ := ih p (pause t).1
      exact ⟨k + 1, hk⟩
    | cancel =>
      obtain ⟨k, hk⟩ := ih p (cancel t).1
      exact ⟨k + 1, hk⟩

/-- A whole `start()` call is a run of steps: the entry, a first part of the events of its
transfer (all of them when no hook aborts), and the exit with the code `curl_easy_perform`
returned. -/
theorem start_eq_runSteps (p : Process) (t : DownloadTask) (f : Fetch) :
    ∃ steps, ((start p t f).1, (start p t f).2.1) = runSteps (p, t) steps := by
  by_cases hg : t.status_ ≠ Status.Idle ∧ t.status_ ≠ Status.Failed
  · exact ⟨[], by rw [start_of_guard p t f hg]; rfl⟩
  · by_cases hi : f.initOk = true
    · have hst : t.status_ = Status.Idle ∨ t.status_ = Status.Failed := by
        by_cases h1 : t.status_ = Status.Idle
        · exact Or.inl h1
        · by_cases h2 : t.status_ = Status.Failed
          · exact Or.inr h2
          · exact absurd ⟨h1, h2⟩ hg
      have hent : applyStep (p, t) (TaskStep.enterStart true)
          = ({ p with requests := p.requests ++
                [CurlHandle.mk t.url_ t.timeout_ (rangeOption t)] },
             { t with curlHandle_ := some (CurlHandle.mk t.url_ t.timeout_ (rangeOption t)),
                      cancelRequested_ := false, errorMessage_ := "",
                      status_ := Status.Downloading }) := by
        simp only [applyStep, enterStart, hg, setupCurl, cleanup]
        rfl
      obtain ⟨k, hk⟩ := deliver_eq_runSteps f.events
        { p with requests := p.requests ++ [CurlHandle.mk t.url_ t.timeout_ (rangeOption t)] }
        { t with curlHandle_ := some (CurlHandle.mk t.url_ t.timeout_ (rangeOption t)),
                 cancelRequested_ := false, errorMessage_ := "",
                 status_ := Status.Downloading }
      refine ⟨TaskStep.enterStart true :: ((f.events.take k).map FetchEvent.toStep ++
        [TaskStep.leaveStart
          ((deliver
            { p with requests := p.requests ++
                [CurlHandle.mk t.url_ t.timeout_ (rangeOption t)] }
            { t with curlHandle_ := some (CurlHandle.mk t.url_ t.timeout_ (rangeOption t)),
                     cancelRequested_ := false, errorMessage_ := "",
                     status_ := Status.Downloading } f.events).2.2.getD f.result)
          f.responseCode]), ?_⟩
      rw [runSteps, List.foldl_cons, hent, List.foldl_append]
      have hk2 := hk
      unfold runSteps at hk2
      rw [← hk2, start_eq_performDownload p t f hst hi, performDownload_eq p _ f _ rfl]
      simp only [List.foldl_cons, List.foldl_nil, applyStep, leaveStart, curl_easy_perform]
      split_ifs <;> rfl
    · have hi2 : f.initOk = false := by simpa using hi
      refine ⟨[TaskStep.enterStart false], ?_⟩
      simp [runSteps, applyStep, enterStart, start, hg, setupCurl, hi2]

/-- C13, as stated, fails: in a transfer of task A a tick reports `2 ^ 63` bytes, `pause()`
arrives and then `resume()`, which stores `2 ^ 63` in `rangeStart_` and clears
`cancelRequested_`; the next tick stores `rangeStart_ + dlnow`, a `size_t` sum that wraps to
0, so `downloadedSize_` is below `rangeStart_`. -/
theorem tick_wraps_below_rangeStart :
    (runSteps (Process.fresh emptyDisk, taskA) (wrapSteps.take 4)).2.status_ = Status.Paused ∧
    (runSteps (Process.fresh emptyDisk, taskA) (wrapSteps.take 4)).2.rangeStart_
      = 9223372036854775808 ∧
    (runSteps (Process.fresh emptyDisk, taskA) (wrapSteps.take 4)).2.cancelRequested_
      = false ∧
    (runSteps (Process.fresh emptyDisk, taskA) wrapSteps).2.rangeStart_
      = 9223372036854775808 ∧
    (runSteps (Process.fresh emptyDisk, taskA) wrapSteps).2.downloadedSize_ = 0 ∧
    ¬ (runSteps (Process.fresh emptyDisk, taskA) wrapSteps).2.rangeStart_
      ≤ (runSteps (Process.fresh emptyDisk, taskA) wrapSteps).2.downloadedSize_ := by
  decide

/-- C13, amended: from a freshly constructed task, after any sequence of steps taken in any
order (entering and leaving `start()`, `pause()`, `resume()`, `cancel()`, write callbacks and
progress ticks, each one step) in which no hook computes a `size_t` sum that wraps,
`downloadedSize_ ≥ rangeStart_` holds, and it holds after every first part of the
sequence. -/
theorem sizes_ordered (p : Process) (url outputPath : String) (steps : List TaskStep)
    (hfit : stepsFit (p, new url outputPath) steps = true) (k : Nat) :
    (runSteps (p, new url outputPath) (steps.take k)).2.rangeStart_
      ≤ (runSteps (p, new url outputPath) (steps.take k)).2.downloadedSize_ :=
  runSteps_le _ _ (Nat.le_refl 0) (stepsFit_take steps _ k hfit)

/-- Witness of C13 (amended): a transfer that writes two bytes, is paused and resumed while
it runs, which stores 2 in `rangeStart_`, and then gets a tick. -/
theorem sizes_ordered_witness :
    stepsFit (Process.fresh emptyDisk, new "http://example.test/a" "/tmp/a.bin") resumedSteps
      = true ∧
    (runSteps (Process.fresh emptyDisk, new "http://example.test/a" "/tmp/a.bin")
      (resumedSteps.take 5)).2.rangeStart_ = 2 ∧
    (runSteps (Process.fresh emptyDisk, new "http://example.test/a" "/tmp/a.bin")
      (resumedSteps.take 5)).2.downloadedSize_ = 6 ∧
    (runSteps (Process.fresh emptyDisk, new "http://example.test/a" "/tmp/a.bin")
      (resumedSteps.take 5)).2.rangeStart_
      ≤ (runSteps (Process.fresh emptyDisk, new "http://example.test/a" "/tmp/a.bin")
        (resumedSteps.take 5)).2.downloadedSize_ :=
  ⟨by decide, by decide, by decide,
    sizes_ordered (Process.fresh emptyDisk) "http://example.test/a" "/tmp/a.bin" resumedSteps
      (by decide) 5⟩

/-- C14, as stated, fails: the task A, given the start offset 3, receives five bytes of a
response of unknown length; after the write callback and the tick it is Downloading with
`totalSize_` 3 and `downloadedSize_` 8. -/
theorem bound_fails_unknown_length :
    (inFlightState (Process.fresh emptyDisk, setRangeStart taskA 3)
        unknownLengthFetch.events).2.status_ = Status.Downloading ∧
    0 < (inFlightState (Process.fresh emptyDisk, setRangeStart taskA 3)
        unknownLengthFetch.events).2.totalSize_ ∧
    ¬ (inFlightState (Process.fresh emptyDisk, setRangeStart taskA 3)
        unknownLengthFetch.events).2.downloadedSize_
      ≤ (inFlightState (Process.fresh emptyDisk, setRangeStart taskA 3)
        unknownLengthFetch.events).2.totalSize_ := by
  decide

/-- C14, amended: after a progress tick that does not abort and whose received count is at
most its total (a body of known length), `downloadedSize_ ≤ totalSize_`, provided
`rangeStart_` plus the total fits a `size_t`.  A tick with total 0 and a positive received
count leaves `totalSize_ = rangeStart_ < downloadedSize_`. -/
theorem bound_after_tick (p : Process) (t : DownloadTask) (dltotal dlnow : Nat)
    (hc : t.cancelRequested_ = false) (hfit : t.rangeStart_ + dltotal < SIZE_MOD) :
    (dlnow ≤ dltotal →
      (onProgress p t dltotal dlnow).2.1.downloadedSize_
        ≤ (onProgress p t dltotal dlnow).2.1.totalSize_) ∧
    (dltotal = 0 → 0 < dlnow → t.rangeStart_ + dlnow < SIZE_MOD →
      (onProgress p t dltotal dlnow).2.1.totalSize_ = t.rangeStart_ ∧
      (onProgress p t dltotal dlnow).2.1.totalSize_
        < (onProgress p t dltotal dlnow).2.1.downloadedSize_) := by
  rw [onProgress_ok p t dltotal dlnow hc]
  dsimp only
  refine ⟨fun hle => ?_, fun h0 hpos hfit2 => ?_⟩
  · rw [Nat.mod_eq_of_lt hfit, Nat.mod_eq_of_lt (by omega)]
    omega
  · subst h0
    rw [Nat.mod_eq_of_lt hfit, Nat.mod_eq_of_lt hfit2]
    omega

/-- Witness of C14 (amended): a tick reporting 4 of 10 bytes on the task A. -/
theorem bound_after_tick_witness :
    taskA.cancelRequested_ = false ∧ taskA.rangeStart_ + 10 < SIZE_MOD ∧
    (onProgress (Process.fresh emptyDisk) taskA 10 4).2.1.downloadedSize_
      ≤ (onProgress (Process.fresh emptyDisk) taskA 10 4).2.1.totalSize_ :=
  ⟨rfl, by decide,
    (bound_after_tick (Process.fresh emptyDisk) taskA 10 4 rfl (by decide)).1 (by decide)⟩

/-- C15, as stated, fails: the task A failed after five bytes and is started again.  While it
is Downloading, a write callback of two bytes raises `downloadedSize_` to 7 and the next
progress tick, reporting 2 of 10 bytes, lowers it to 2. -/
theorem tick_lowers_downloaded :
    failedRun.2.1.status_ = Status.Failed ∧ failedRun.2.1.downloadedSize_ = 5 ∧
    (inFlightState (failedRun.1, failedRun.2.1)
        [FetchEvent.write [1, 2] true true]).2.status_ = Status.Downloading ∧
    (inFlightState (failedRun.1, failedRun.2.1)
        [FetchEvent.write [1, 2] true true]).2.downloadedSize_ = 7 ∧
    (inFlightState (failedRun.1, failedRun.2.1)
        [FetchEvent.write [1, 2] true true, FetchEvent.progress 10 2]).2.status_
      = Status.Downloading ∧
    (inFlightState (failedRun.1, failedRun.2.1)
        [FetchEvent.write [1, 2] true true, FetchEvent.progress 10 2]).2.downloadedSize_
      = 2 := by
  decide

/-- C15, amended: a write callback never lowers `downloadedSize_` as long as the new count
fits a `size_t`.  A progress tick that does not abort stores `rangeStart_ + dlnow` whatever
the count was before: it keeps the count from decreasing exactly when that sum is at least
the previous count, as it is after an earlier tick of the same transfer with a smaller or
equal received count. -/
theorem hooks_monotone (p : Process) (t : DownloadTask) :
    (∀ data o w, t.downloadedSize_ + data.length < SIZE_MOD →
      t.downloadedSize_ ≤ (onWriteData p t data o w).2.1.downloadedSize_) ∧
    (∀ a b, t.cancelRequested_ = false → t.rangeStart_ + b < SIZE_MOD →
      (t.downloadedSize_ ≤ (onProgress p t a b).2.1.downloadedSize_ ↔
        t.downloadedSize_ ≤ t.rangeStart_ + b)) ∧
    (∀ a b a2 b2, t.cancelRequested_ = false → b ≤ b2 → t.rangeStart_ + b2 < SIZE_MOD →
      (onProgress p t a b).2.1.downloadedSize_
        ≤ (onProgress (onProgress p t a b).1 (onProgress p t a b).2.1 a2 b2).2.1.downloadedSize_)
    := by
  refine ⟨fun data o w hfit => ?_, fun a b hc hfit => ?_, fun a b a2 b2 hc hle hfit => ?_⟩
  · unfold onWriteData
    split
    · exact Nat.le_refl _
    · split
      · split
        · exact Nat.le_refl _
        · split
          · exact Nat.le_refl _
          · dsimp only
            rw [Nat.mod_eq_of_lt hfit]
            omega
      · split
        · exact Nat.le_refl _
        · dsimp only
          rw [Nat.mod_eq_of_lt hfit]
          omega
  · rw [onProgress_ok p t a b hc]
    dsimp only
    rw [Nat.mod_eq_of_lt hfit]
  · rw [onProgress_ok p t a b hc]
    dsimp only
    rw [onProgress_ok _ { t with totalSize_ := (t.rangeStart_ + a) % SIZE_MOD,
                                 downloadedSize_ := (t.rangeStart_ + b) % SIZE_MOD } a2 b2 hc]
    dsimp only
    rw [Nat.mod_eq_of_lt hfit, Nat.mod_eq_of_lt (by omega)]
    omega

/-- Witness of C15 (amended): two ticks of one transfer on the task A, 4 then 6 bytes. -/
theorem hooks_monotone_witness :
    taskA.cancelRequested_ = false ∧ taskA.rangeStart_ + 6 < SIZE_MOD ∧
    (onProgress (Process.fresh emptyDisk) taskA 10 4).2.1.downloadedSize_
      ≤ (onProgress (onProgress (Process.fresh emptyDisk) taskA 10 4).1
          (onProgress (Process.fresh emptyDisk) taskA 10 4).2.1 10 6).2.1.downloadedSize_ :=
  ⟨rfl, by decide,
    (hooks_monotone (Process.fresh emptyDisk) taskA).2.2 10 4 10 6 rfl (by decide)
      (by decide)⟩

/-- C16: the watched task is cancelled while its transfer runs, so it reaches Cancelled
with no callback call made.  The next tick aborts the transfer, `start()` returns with the
task Failed, a second `start()` is accepted and its tick calls the user callback. -/
theorem callback_after_cancelled :
    (inFlightState (Process.fresh emptyDisk, watchedTask)
        [FetchEvent.write [1, 2] true true, FetchEvent.cancel]).2.status_
      = Status.Cancelled ∧
    cancelledRun.1.callbackCalls = [] ∧
    cancelledRun.2.1.status_ = Status.Failed ∧
    restartedRun.2.2 = true ∧
    restartedRun.1.callbackCalls = [(2, 2)] := by
  decide

end DownloadTask

/-! ## Lemmas on the registry and the server -/

namespace Downloader

theorem find_assign_self (l : List (Int × DownloadTask)) (taskId : Int) (task : DownloadTask) :
    find (assign l taskId task) taskId = some task := by
  induction l with
  | nil => simp [assign, find]
  | cons e l ih =>
    obtain ⟨k, t⟩ := e
    by_cases hk : k = taskId
    · simp [assign, find, hk]
    · simp [assign, find, hk, ih]

theorem wrapInt32_add (a b : Int) : wrapInt32 (wrapInt32 a + b) = wrapInt32 (a + b) := by
  unfold wrapInt32
  omega

theorem wrapInt32_of_lt (n : Nat) (h : n < 2147483648) : wrapInt32 (n : Int) = (n : Int) := by
  unfold wrapInt32
  omega

theorem applyOp_next (d : Downloader) (op : RegistryOp) (c : Int)
    (h : d.nextTaskId_ = wrapInt32 c) :
    (applyOp d op).nextTaskId_ = wrapInt32 (c + (countAdds [op] : Nat)) := by
  cases op with
  | add url outputPath =>
    simp only [applyOp, addTask, countAdds]
    rw [h, wrapInt32_add]
    rfl
  | remove taskId =>
    simp only [applyOp, removeTask, countAdds]
    split
    · simpa using h
    · simpa using h

theorem runOps_next (ops : List RegistryOp) (d : Downloader) (c : Int)
    (h : d.nextTaskId_ = wrapInt32 c) :
    (runOps d ops).nextTaskId_ = wrapInt32 (c + (countAdds ops : Nat)) := by
  induction ops generalizing d c with
  | nil => simpa [runOps, countAdds] using h
  | cons op ops ih =>
    have h1 := applyOp_next d op c h
    have h2 := ih (applyOp d op) _ h1
    simp only [runOps, List.foldl_cons] at h2 ⊢
    rw [h2]
    congr 1
    cases op with
    | add url outputPath =>
      simp only [countAdds, List.foldl_cons]
      push_cast
      omega
    | remove taskId => simp [countAdds]

theorem addTask_id (d : Downloader) (url outputPath : String) :
    (addTask d url outputPath).2 = d.nextTaskId_ := rfl

theorem countAdds_replicate (n : Nat) (url outputPath : String) :
    countAdds (List.replicate n (RegistryOp.add url outputPath)) = n := by
  induction n with
  | zero => rfl
  | succ n ih => simp [List.replicate_succ, countAdds, ih]

theorem addedIds_eq (ops : List RegistryOp) (d : Downloader) (c : Int)
    (h : d.nextTaskId_ = wrapInt32 c) :
    addedIds d ops = (List.range (countAdds ops)).map (fun i => wrapInt32 (c + (i : Nat))) := by
  induction ops generalizing d c with
  | nil => simp [addedIds, countAdds]
  | cons op ops ih =>
    cases op with
    | add url outputPath =>
      have h1 : (addTask d url outputPath).1.nextTaskId_ = wrapInt32 (c + 1) := by
        simp only [addTask]
        rw [h, wrapInt32_add]
      simp only [addedIds, countAdds]
      rw [ih _ _ h1, List.range_succ_eq_map, List.map_cons, List.map_map]
      congr 1
      · simp [addTask, h]
      · apply List.map_congr_left
        intro i _
        simp only [Function.comp]
        congr 1
        push_cast
        omega
    | remove taskId =>
      have h1 : (removeTask d taskId).1.nextTaskId_ = wrapInt32 c := by
        simp only [removeTask]
        split <;> simpa using h
      simp only [addedIds, countAdds]
      exact ih _ _ h1

end Downloader

namespace DownloadServer

theorem cancelTask_registered (d : Downloader) (taskId : Int) (task : DownloadTask)
    (h : Downloader.getTask d taskId = some task) :
    (Downloader.cancelTask d taskId).2 = true ∧
    Downloader.getTask (Downloader.cancelTask d taskId).1 taskId
      = some (DownloadTask.cancel task).1 := by
  unfold Downloader.cancelTask
  rw [h]
  exact ⟨rfl, Downloader.find_assign_self _ _ _⟩

theorem handleCancel_registered (srv : DownloadServer) (taskId : Int) (args : List Char)
    (task : DownloadTask) (hid : extractInt args = (taskId, false))
    (h : Downloader.getTask srv.downloader_ taskId = some task) :
    (handleCancel srv args).2 = "OK Cancelled task " ++ toString taskId ∧
    Downloader.getTask (handleCancel srv args).1.downloader_ taskId
      = some (DownloadTask.cancel task).1 := by
  have hc := cancelTask_registered srv.downloader_ taskId task h
  unfold handleCancel
  rw [hid]
  simp only [Bool.false_eq_true, if_false, hc.1, if_true]
  exact ⟨trivial, hc.2⟩

theorem processCommand_cancel (srv : DownloadServer) (rest : List Char) :
    processCommand srv (String.mk ("CANCEL ".data ++ rest)) = handleCancel srv (' ' :: rest) := by
  rfl

theorem processCommand_start (srv : DownloadServer) (rest : List Char) :
    processCommand srv (String.mk ("START ".data ++ rest)) = handleStart srv (' ' :: rest) := by
  rfl

theorem processCommand_resume (srv : DownloadServer) (rest : List Char) :
    processCommand srv (String.mk ("RESUME ".data ++ rest)) = handleResume srv (' ' :: rest) := by
  rfl

theorem extractInt_space (rest : List Char) : extractInt (' ' :: rest) = extractInt rest := by
  rfl

theorem cancel_repeated (n : Nat) (srv : DownloadServer) (taskId : Int) (rest : List Char)
    (task : DownloadTask) (hid : extractInt rest = (taskId, false))
    (h : Downloader.getTask srv.downloader_ taskId = some task) :
    ∃ task2, Downloader.getTask
      ((fun s => (processCommand s (String.mk ("CANCEL ".data ++ rest))).1)^[n] srv).downloader_
      taskId = some task2 := by
  induction n generalizing srv task with
  | zero => exact ⟨task, h⟩
  | succ n ih =>
    rw [Function.iterate_succ_apply]
    apply ih _ (DownloadTask.cancel task).1
    rw [processCommand_cancel]
    exact (handleCancel_registered srv taskId _ task
      (by rw [extractInt_space]; exact hid) h).2

end DownloadServer

/-! ## The claims on the registry and the server -/

namespace DownloadServer

/-- C17: `cancel()` always returns true and leaves the task with the status Cancelled,
`cancelRequested_` set and the other fields as before; `k ≥ 1` calls in a row leave the task
as one call does.  For a task registered under the id that the argument of `CANCEL` is read
as, the server answers `OK Cancelled task <id>`, also after any number of earlier `CANCEL`
commands for the same id. -/
theorem cancel_idempotent (t : DownloadTask) (k : Nat) (hk : 1 ≤ k)
    (srv : DownloadServer) (taskId : Int) (rest : List Char) (n : Nat)
    (hid : extractInt rest = (taskId, false))
    (hreg : Downloader.getTask srv.downloader_ taskId ≠ none) :
    DownloadTask.cancel t
      = ({ t with cancelRequested_ := true, status_ := Status.Cancelled }, true) ∧
    (fun x => (DownloadTask.cancel x).1)^[k] t = (DownloadTask.cancel t).1 ∧
    (∀ j, (DownloadTask.cancel ((fun x => (DownloadTask.cancel x).1)^[j] t)).2 = true) ∧
    (processCommand
        ((fun s => (processCommand s (String.mk ("CANCEL ".data ++ rest))).1)^[n] srv)
        (String.mk ("CANCEL ".data ++ rest))).2
      = "OK Cancelled task " ++ toString taskId := by
  refine ⟨rfl, ?_, fun _ => rfl, ?_⟩
  · obtain ⟨m, rfl⟩ : ∃ m, k = m + 1 := ⟨k - 1, by omega⟩
    clear hk
    induction m with
    | zero => rfl
    | succ m ih =>
      rw [Function.iterate_succ_apply', ih]
      rfl
  · cases hg : Downloader.getTask srv.downloader_ taskId with
    | none => exact absurd hg hreg
    | some task =>
      obtain ⟨task2, h2⟩ := cancel_repeated n srv taskId rest task hid hg
      rw [processCommand_cancel]
      exact (handleCancel_registered _ taskId _ task2
        (by rw [extractInt_space]; exact hid) h2).1

/-- Witness of C17: three `cancel()` calls on the task A, and a third `CANCEL 0` sent to the
server holding one task. -/
theorem cancel_idempotent_witness :
    (fun x => (DownloadTask.cancel x).1)^[3] taskA = (DownloadTask.cancel taskA).1 ∧
    (processCommand
        ((fun s => (processCommand s "CANCEL 0").1)^[2] oneTaskServer) "CANCEL 0").2
      = "OK Cancelled task 0" :=
  have h := cancel_idempotent taskA 3 (by decide) oneTaskServer 0 ['0'] 2 (by decide)
    (by decide)
  ⟨h.2.1, h.2.2.2⟩

end DownloadServer

namespace Downloader

/-- C18, as stated, fails: `nextTaskId_` is a 32-bit `int`, and on a registry that has made
2147483648 `addTask` calls the next `addTask` returns -2147483648. -/
theorem id_wraps_negative :
    (addTask (runOps new (List.replicate 2147483648 (RegistryOp.add "u" "o"))) "u" "o").2
      = -2147483648 ∧
    (addTask (runOps new (List.replicate 2147483648 (RegistryOp.add "u" "o"))) "u" "o").2
      < 0 := by
  have h : (addTask (runOps new (List.replicate 2147483648 (RegistryOp.add "u" "o")))
      "u" "o").2 = -2147483648 := by
    rw [addTask_id, runOps_next _ new 0 (by decide), countAdds_replicate]
    norm_num [wrapInt32]
  rw [h]
  exact ⟨rfl, by norm_num⟩

/-- C18, amended: on a registry just constructed, for every sequence of `addTask` and
`removeTask` calls with at most 2147483648 `addTask` calls, the ids returned are 0, 1, 2, ...
in call order (the k-th is k-1), whatever was removed in between; so they are non-negative
and strictly increasing, hence pairwise distinct. -/
theorem added_ids (ops : List RegistryOp) (h : countAdds ops ≤ 2147483648) :
    addedIds new ops = (List.range (countAdds ops)).map Int.ofNat ∧
    (∀ taskId ∈ addedIds new ops, 0 ≤ taskId) ∧
    (addedIds new ops).Pairwise (fun a b => a < b) := by
  have he : addedIds new ops = (List.range (countAdds ops)).map Int.ofNat := by
    rw [addedIds_eq ops new 0 (by decide)]
    apply List.map_congr_left
    intro i hi
    have hlt : i < 2147483648 := by
      have := List.mem_range.mp hi
      omega
    rw [Int.zero_add]
    exact wrapInt32_of_lt i hlt
  refine ⟨he, ?_, ?_⟩
  · intro taskId hmem
    rw [he] at hmem
    obtain ⟨i, _, rfl⟩ := List.mem_map.mp hmem
    exact Int.ofNat_nonneg i
  · rw [he, List.pairwise_map]
    exact (List.pairwise_lt_range (countAdds ops)).imp
      (fun hab => Int.ofNat_lt.mpr hab)

/-- Witness of C18 (amended): two adds, a removal of the first task, and a third add. -/
theorem added_ids_witness :
    countAdds [RegistryOp.add "u" "a", RegistryOp.add "v" "b", RegistryOp.remove 0,
      RegistryOp.add "w" "c"] ≤ 2147483648 ∧
    addedIds new [RegistryOp.add "u" "a", RegistryOp.add "v" "b", RegistryOp.remove 0,
      RegistryOp.add "w" "c"] = [0, 1, 2] :=
  ⟨by decide,
    (added_ids [RegistryOp.add "u" "a", RegistryOp.add "v" "b", RegistryOp.remove 0,
      RegistryOp.add "w" "c"] (by decide)).1.trans (by decide)⟩

end Downloader

namespace DownloadServer

theorem processCommand_running (srv : DownloadServer) (command : String) :
    (processCommand srv command).1.running_ = srv.running_ := by
  unfold processCommand
  split
  · rfl
  · dsimp only
    split_ifs
    · rfl
    · unfold handleAdd
      split
      · rfl
      · dsimp only
        split <;> rfl
    · unfold handleStart
      split_ifs <;> rfl
    · unfold handlePause
      split_ifs <;> rfl
    · unfold handleResume
      split_ifs <;> rfl
    · unfold handleCancel
      split_ifs <;> rfl
    · unfold handleList
      split <;> rfl
    · unfold handleStatus
      split <;> rfl
    · rfl
    · rfl

theorem handleClient_length (reads : List String) (srv : DownloadServer)
    (hr : srv.running_ = true) (hne : ∀ received ∈ reads, received ≠ "") :
    (handleClient srv reads).2.length = reads.length := by
  induction reads generalizing srv with
  | nil => rfl
  | cons received reads ih =>
    have h1 : ¬ (srv.running_ = false ∨ received = "") := by
      intro h
      rcases h with h | h
      · rw [hr] at h
        exact Bool.noConfusion h
      · exact hne received (List.mem_cons_self _ _) h
    simp only [handleClient, if_neg h1, List.length_cons]
    rw [ih _ (by rw [processCommand_running]; exact hr)
      (fun x hx => hne x (List.mem_cons_of_mem _ hx))]

theorem dropWhile_reverse_append (line tail : List Char)
    (htail : ∀ c ∈ tail, (c = charCR || c = charLF) = true)
    (hlast : ∀ c, line.getLast? = some c → (c = charCR || c = charLF) = false) :
    ((line ++ tail).reverse.dropWhile (fun c => c = charCR || c = charLF)).reverse = line := by
  rw [List.reverse_append]
  have h1 : (tail.reverse ++ line.reverse).dropWhile (fun c => c = charCR || c = charLF)
      = line.reverse.dropWhile (fun c => c = charCR || c = charLF) := by
    have hall : ∀ c ∈ tail.reverse, (c = charCR || c = charLF) = true :=
      fun c hc => htail c (List.mem_reverse.mp hc)
    generalize tail.reverse = l at hall
    induction l with
    | nil => rfl
    | cons a l ih =>
      rw [List.cons_append, List.dropWhile_cons, hall a (List.mem_cons_self _ _)]
      exact ih (fun c hc => hall c (List.mem_cons_of_mem _ hc))
  rw [h1]
  cases hl : line.reverse with
  | nil =>
    have : line = [] := List.reverse_eq_nil_iff.mp hl
    simp [this]
  | cons a l =>
    have ha : line.getLast? = some a := by
      rw [← List.reverse_reverse line, hl]
      simp
    rw [List.dropWhile_cons, hlast a ha]
    simp only [Bool.false_eq_true, if_false]
    rw [← hl, List.reverse_reverse]

end DownloadServer

namespace DownloadServer

/-- C19, as stated, fails: the only task of the server is Idle and `RESUME 0` is answered
`OK Resumed task 0`; after `CANCEL 0` the task is Cancelled and `START 0` is answered
`OK Started task 0`. -/
theorem start_resume_answer_ok :
    (Downloader.getTask oneTaskServer.downloader_ 0).map DownloadTask.status_
      = some Status.Idle ∧
    (processCommand oneTaskServer "RESUME 0").2 = "OK Resumed task 0" ∧
    (Downloader.getTask cancelledServer.downloader_ 0).map DownloadTask.status_
      = some Status.Cancelled ∧
    (processCommand cancelledServer "START 0").2 = "OK Started task 0" := by
  decide

/-- C19, amended: `START <id>` and `RESUME <id>` only hand the call to the worker pool.  For
a registered id the answer is `OK Started task <id>`, respectively `OK Resumed task <id>`,
whatever the status of the task; the tasks are unchanged and one job is appended to the
pool.  The answers `ERROR Failed to start task <id>` and `ERROR Failed to resume task <id>`
are given exactly when no task is registered under the id. -/
theorem start_resume_dispatch (srv : DownloadServer) (taskId : Int) (rest : List Char)
    (hid : extractInt rest = (taskId, false)) :
    (Downloader.getTask srv.downloader_ taskId ≠ none →
      (processCommand srv (String.mk ("START ".data ++ rest))).2
        = "OK Started task " ++ toString taskId ∧
      (processCommand srv (String.mk ("START ".data ++ rest))).1.downloader_.tasks_
        = srv.downloader_.tasks_ ∧
      (processCommand srv (String.mk ("START ".data ++ rest))).1.downloader_.threadPool_
        = srv.downloader_.threadPool_ ++ [Job.start taskId] ∧
      (processCommand srv (String.mk ("RESUME ".data ++ rest))).2
        = "OK Resumed task " ++ toString taskId ∧
      (processCommand srv (String.mk ("RESUME ".data ++ rest))).1.downloader_.tasks_
        = srv.downloader_.tasks_ ∧
      (processCommand srv (String.mk ("RESUME ".data ++ rest))).1.downloader_.threadPool_
        = srv.downloader_.threadPool_ ++ [Job.resume taskId]) ∧
    (Downloader.getTask srv.downloader_ taskId = none →
      (processCommand srv (String.mk ("START ".data ++ rest))).2
        = "ERROR Failed to start task " ++ toString taskId ∧
      (processCommand srv (String.mk ("RESUME ".data ++ rest))).2
        = "ERROR Failed to resume task " ++ toString taskId) := by
  have hid2 : extractInt (' ' :: rest) = (taskId, false) := by
    rw [extractInt_space]
    exact hid
  rw [processCommand_start, processCommand_resume]
  unfold handleStart handleResume
  rw [hid2]
  constructor
  · intro hreg
    cases hg : Downloader.getTask srv.downloader_ taskId with
    | none => exact absurd hg hreg
    | some task => simp [Downloader.startTask, Downloader.resumeTask, hg]
  · intro hg
    simp [Downloader.startTask, Downloader.resumeTask, hg]

/-- Witness of C19 (amended): `START 0` on the server whose only task is Cancelled. -/
theorem start_resume_dispatch_witness :
    extractInt ['0'] = (0, false) ∧
    Downloader.getTask cancelledServer.downloader_ 0 ≠ none ∧
    (processCommand cancelledServer "START 0").2 = "OK Started task 0" ∧
    (processCommand cancelledServer "START 0").1.downloader_.threadPool_ = [Job.start 0] :=
  have h := (start_resume_dispatch cancelledServer 0 ['0'] (by decide)).1 (by decide)
  ⟨by decide, by decide, h.1, h.2.2.1⟩

/-- C20, as stated, fails: the two lines `ADD u p` and `LIST` received in one read are
dispatched as the single command `ADD` and get the single response `OK 0`. -/
theorem two_lines_one_response :
    (handleClient freshServer ["ADD u p\nLIST\n"]).2 = ["OK 0\r\n"] ∧
    (handleClient freshServer ["ADD u p\nLIST\n"]).2.length = 1 := by
  decide

/-- C20, amended: the server dispatches what each `recv` call returns as one command, after
removing its trailing carriage returns and line feeds: k non-empty reads give exactly k
responses, in order.  A read that holds one line ended by a line feed, or by a carriage
return and a line feed, is answered with the response to that line followed by CR LF. -/
theorem one_command_per_read (srv : DownloadServer) (reads : List String) (line : List Char)
    (hr : srv.running_ = true) (hne : ∀ received ∈ reads, received ≠ "")
    (hlast : ∀ c, line.getLast? = some c → (c = charCR || c = charLF) = false) :
    (handleClient srv reads).2.length = reads.length ∧
    (handleClient srv [String.mk (line ++ [charLF])]).2
      = [(processCommand srv (String.mk line)).2 ++ "\r\n"] ∧
    (handleClient srv [String.mk (line ++ [charCR, charLF])]).2
      = [(processCommand srv (String.mk line)).2 ++ "\r\n"] := by
  have hrun : ∀ tail : List Char, tail ≠ [] →
      ¬ (srv.running_ = false ∨ String.mk (line ++ tail) = "") := by
    intro tail ht h
    rcases h with h | h
    · rw [hr] at h
      exact Bool.noConfusion h
    · have hd : line ++ tail = [] := congrArg String.data h
      exact ht (List.append_eq_nil.mp hd).2
  have htrim : ∀ tail : List Char, (∀ c ∈ tail, (c = charCR || c = charLF) = true) →
      trimNewlines (String.mk (line ++ tail)) = String.mk line := by
    intro tail ht
    unfold trimNewlines
    rw [dropWhile_reverse_append line tail ht hlast]
  refine ⟨handleClient_length reads srv hr hne, ?_, ?_⟩
  · simp only [handleClient, if_neg (hrun [charLF] (by simp)), sendToClient]
    rw [htrim [charLF] (by decide)]
  · simp only [handleClient, if_neg (hrun [charCR, charLF] (by simp)), sendToClient]
    rw [htrim [charCR, charLF] (by decide)]

/-- Witness of C20 (amended): `ADD u p` and `LIST` sent in two reads get two responses. -/
theorem one_command_per_read_witness :
    freshServer.running_ = true ∧
    (handleClient freshServer ["ADD u p\n", "LIST\r\n"]).2.length = 2 ∧
    (handleClient freshServer [String.mk ("LIST".data ++ [charLF])]).2
      = [(processCommand freshServer "LIST").2 ++ "\r\n"] :=
  have h := one_command_per_read freshServer ["ADD u p\n", "LIST\r\n"] "LIST".data rfl
    (by decide) (by decide)
  ⟨rfl, h.1, h.2.1⟩

end DownloadServer

/-! ## The claims on responses, dispatch, the worker pool and chunking -/

namespace DownloadServer

theorem extractWord_token (lead token rest : List Char)
    (hlead : ∀ c ∈ lead, isspace c = true) (htoken : ∀ c ∈ token, isspace c = false)
    (hne : token ≠ []) (hrest : ∀ c, rest.head? = some c → isspace c = true) :
    extractWord (lead ++ token ++ rest) = (token, rest) := by
  have hdrop : (lead ++ token ++ rest).dropWhile isspace = token ++ rest := by
    induction lead with
    | nil =>
      cases token with
      | nil => exact absurd rfl hne
      | cons c cs =>
        simp only [List.nil_append, List.cons_append, List.dropWhile_cons,
          htoken c (List.mem_cons_self _ _)]
        rfl
    | cons a lead ih =>
      simp only [List.cons_append, List.dropWhile_cons, hlead a (List.mem_cons_self _ _),
        if_true]
      simpa using ih (fun c hc => hlead c (List.mem_cons_of_mem _ hc))
  have htake : ∀ tok : List Char, (∀ c ∈ tok, isspace c = false) →
      (tok ++ rest).takeWhile (fun c => !isspace c) = tok ∧
      (tok ++ rest).dropWhile (fun c => !isspace c) = rest := by
    intro tok htok
    induction tok with
    | nil =>
      cases rest with
      | nil => exact ⟨rfl, rfl⟩
      | cons c cs =>
        have hc := hrest c rfl
        simp [List.takeWhile_cons, List.dropWhile_cons, hc]
    | cons a tok ih =>
      have ha := htok a (List.mem_cons_self _ _)
      have := ih (fun c hc => htok c (List.mem_cons_of_mem _ hc))
      simp only [List.cons_append, List.takeWhile_cons, List.dropWhile_cons, ha,
        Bool.not_false, if_true]
      exact ⟨by rw [this.1], this.2⟩
  unfold extractWord
  rw [hdrop, (htake token htoken).1, (htake token htoken).2]

/-- C24: two command lines that differ only in the casing of the command token (the same
leading white space, tokens with equal upper-case forms, the same rest) get the same response
and leave the same server state. -/
theorem command_case_insensitive (srv : DownloadServer) (lead token1 token2 rest : List Char)
    (hlead : ∀ c ∈ lead, isspace c = true)
    (h1 : ∀ c ∈ token1, isspace c = false) (h2 : ∀ c ∈ token2, isspace c = false)
    (hrest : ∀ c, rest.head? = some c → isspace c = true)
    (hcase : token1.map Char.toUpper = token2.map Char.toUpper) :
    processCommand srv (String.mk (lead ++ token1 ++ rest))
      = processCommand srv (String.mk (lead ++ token2 ++ rest)) := by
  by_cases hne : token1 = []
  · have hne2 : token2 = [] := by
      have hl := congrArg List.length hcase
      simp only [List.length_map, hne, List.length_nil] at hl
      exact List.eq_nil_of_length_eq_zero hl.symm
    rw [hne, hne2]
  · have hne2 : token2 ≠ [] := by
      intro h
      apply hne
      have hl := congrArg List.length hcase
      simp only [List.length_map, h, List.length_nil] at hl
      exact List.eq_nil_of_length_eq_zero hl
    unfold processCommand
    simp only [extractWord_token lead token1 rest hlead h1 hne hrest,
      extractWord_token lead token2 rest hlead h2 hne2 hrest, hcase, hne, hne2]

/-- Witness of C24: `add`, `ADD` and `AdD` with the same arguments. -/
theorem command_case_insensitive_witness :
    processCommand freshServer "add u p" = processCommand freshServer "AdD u p" ∧
    (processCommand freshServer "AdD u p").2 = "OK 0" :=
  ⟨command_case_insensitive freshServer [] "add".data "AdD".data " u p".data (by decide)
      (by decide) (by decide) (by decide) (by decide),
    by decide⟩

/-- C26: a command line with a first token whose upper-case form is none of the nine command
names is answered `ERROR Unknown command: ` followed by that upper-case form, and the server
state, with the registry, is unchanged. -/
theorem unknown_command (srv : DownloadServer) (command : String)
    (hne : (extractWord command.data).1 ≠ [])
    (hcmd : String.mk ((extractWord command.data).1.map Char.toUpper) ∉ commandNames) :
    processCommand srv command
      = (srv, "ERROR Unknown command: " ++
          String.mk ((extractWord command.data).1.map Char.toUpper)) := by
  simp only [commandNames, List.mem_cons, List.mem_singleton, List.not_mem_nil, or_false,
    not_or] at hcmd
  obtain ⟨c1, c2, c3, c4, c5, c6, c7, c8, c9⟩ := hcmd
  unfold processCommand
  simp only [hne, c1, c2, c3, c4, c5, c6, c7, c8, c9, if_false]

/-- Witness of C26: the command `frob`. -/
theorem unknown_command_witness :
    (extractWord "frob 1".data).1 ≠ [] ∧
    processCommand oneTaskServer "frob 1" = (oneTaskServer, "ERROR Unknown command: FROB") :=
  ⟨by decide, unknown_command oneTaskServer "frob 1" (by decide) (by decide)⟩

end DownloadServer

namespace DownloadServer

theorem linesEndCRLF_append (text : List Char) (previous : Char)
    (h : ∀ c ∈ text, c ≠ charLF) :
    linesEndCRLF previous (text ++ [charCR, charLF]) = true := by
  induction text generalizing previous with
  | nil =>
    have hne : charCR ≠ charLF := by decide
    simp [linesEndCRLF, hne]
  | cons a text ih =>
    have ha : a ≠ charLF := h a (List.mem_cons_self _ _)
    simp only [List.cons_append, linesEndCRLF, ha, if_false, Bool.true_and]
    exact ih a (fun c hc => h c (List.mem_cons_of_mem _ hc))

/-- C22, as stated, fails: the bytes sent for `LIST` by a server with one task hold two
lines, and the first one ends with a bare line feed. -/
theorem list_line_ends_bare_lf :
    listBytes
      = "OK 1 tasks:\n0: http://example.test/1k.bin => /tmp/a.bin [Idle] 0/0 bytes\r\n" ∧
    linesEndCRLF charLF listBytes.data = false := by
  decide

/-- C22, amended: the bytes sent for a response are the response followed by one CR LF, so
they end with CR LF; every line of them ends with CR LF when the response holds no line
feed, that is, when it is a single line. -/
theorem response_ends_crlf (srv : DownloadServer) (command : String) :
    (sendToClient (processCommand srv command).2).data
      = (processCommand srv command).2.data ++ [charCR, charLF] ∧
    ((∀ c ∈ (processCommand srv command).2.data, c ≠ charLF) →
      linesEndCRLF charLF (sendToClient (processCommand srv command).2).data = true) := by
  have h : (sendToClient (processCommand srv command).2).data
      = (processCommand srv command).2.data ++ [charCR, charLF] := rfl
  refine ⟨h, fun hno => ?_⟩
  rw [h]
  exact linesEndCRLF_append _ _ hno

/-- Witness of C22 (amended): the bytes sent for `CANCEL 0`. -/
theorem response_ends_crlf_witness :
    (sendToClient (processCommand oneTaskServer "CANCEL 0").2) = "OK Cancelled task 0\r\n" ∧
    linesEndCRLF charLF (sendToClient (processCommand oneTaskServer "CANCEL 0").2).data
      = true :=
  ⟨by decide, (response_ends_crlf oneTaskServer "CANCEL 0").2 (by decide)⟩

/-- C23: with `downloaded = total = 2 ^ 63` the frame should carry 100, but the `size_t`
product `downloaded * 100` wraps to 0 and the frame sent is `PROGRESS 0:0%`. -/
theorem progress_product_wraps :
    100 * 9223372036854775808 / 9223372036854775808 = 100 ∧
    9223372036854775808 < SIZE_MOD ∧
    (9223372036854775808 * 100) % SIZE_MOD = 0 ∧
    progressReporter 0 9223372036854775808 9223372036854775808 = some "PROGRESS 0:0%" := by
  refine ⟨by norm_num, by norm_num [SIZE_MOD], by norm_num [SIZE_MOD], ?_⟩
  have h : (9223372036854775808 * 100) % SIZE_MOD / 9223372036854775808 = 0 := by
    norm_num [SIZE_MOD]
  unfold progressReporter
  rw [if_pos (by norm_num), h]
  rfl

end DownloadServer

namespace ThreadPool

variable {α : Type}

theorem pushAt_length (queues : List (List α)) (index : Nat) (work : α) :
    (pushAt queues index work).length = queues.length := by
  induction queues generalizing index with
  | nil => rfl
  | cons queue queues ih =>
    cases index with
    | zero => rfl
    | succ index => simp [pushAt, ih]

theorem pushAt_getD_self (queues : List (List α)) (index : Nat) (work : α)
    (h : index < queues.length) :
    (pushAt queues index work).getD index [] = queues.getD index [] ++ [work] := by
  induction queues generalizing index with
  | nil => simp at h
  | cons queue queues ih =>
    cases index with
    | zero => rfl
    | succ index =>
      simp only [pushAt, List.getD_cons_succ]
      exact ih index (by simpa using h)

theorem pushAt_getD_other (queues : List (List α)) (index other : Nat) (work : α)
    (h : other ≠ index) :
    (pushAt queues index work).getD other [] = queues.getD other [] := by
  induction queues generalizing index other with
  | nil => rfl
  | cons queue queues ih =>
    cases index with
    | zero =>
      cases other with
      | zero => exact absurd rfl h
      | succ other => rfl
    | succ index =>
      cases other with
      | zero => rfl
      | succ other =>
        simp only [pushAt, List.getD_cons_succ]
        exact ih index other (fun hh => h (by rw [hh]))

theorem pushAt_sum (queues : List (List α)) (index : Nat) (work : α)
    (h : index < queues.length) :
    ((pushAt queues index work).map List.length).sum = (queues.map List.length).sum + 1 := by
  induction queues generalizing index with
  | nil => simp at h
  | cons queue queues ih =>
    cases index with
    | zero =>
      simp only [pushAt, List.map_cons, List.sum_cons, List.length_append, List.length_singleton]
      omega
    | succ index =>
      simp only [pushAt, List.map_cons, List.sum_cons]
      rw [ih index (by simpa using h)]
      omega

theorem popAt_getD_self (queues : List (List α)) (index : Nat) :
    (popAt queues index).getD index [] = (queues.getD index []).tail := by
  induction queues generalizing index with
  | nil => rfl
  | cons queue queues ih =>
    cases index with
    | zero => rfl
    | succ index =>
      simp only [popAt, List.getD_cons_succ]
      exact ih index

theorem popAt_getD_other (queues : List (List α)) (index other : Nat) (h : other ≠ index) :
    (popAt queues index).getD other [] = queues.getD other [] := by
  induction queues generalizing index other with
  | nil => rfl
  | cons queue queues ih =>
    cases index with
    | zero =>
      cases other with
      | zero => exact absurd rfl h
      | succ other => rfl
    | succ index =>
      cases other with
      | zero => rfl
      | succ other =>
        simp only [popAt, List.getD_cons_succ]
        exact ih index other (fun hh => h (by rw [hh]))

theorem popAt_sum (queues : List (List α)) (index : Nat) (work : α)
    (h : frontAt queues index = some work) :
    ((popAt queues index).map List.length).sum + 1 = (queues.map List.length).sum := by
  induction queues generalizing index with
  | nil => simp [frontAt] at h
  | cons queue queues ih =>
    cases index with
    | zero =>
      cases queue with
      | nil => simp [frontAt] at h
      | cons a queue =>
        simp only [popAt, List.tail_cons, List.map_cons, List.sum_cons, List.length_cons]
        omega
    | succ index =>
      simp only [popAt, List.map_cons, List.sum_cons]
      have := ih index (by simpa [frontAt] using h)
      omega

/-- C27: `--threads 0` is accepted by `main` and gives `threadPoolSize = 0`.  The download
pool is then built with one queue, but the connection pool with none, and `enqueue` on it
has no defined result. -/
theorem zero_threads_no_queue :
    mainSettings ["--threads", "0"] = some (10280, 0) ∧
    (DownloadServer.downloadPool 0).task_queues.length = 1 ∧
    (DownloadServer.connectionPool 0).task_queues.length = 0 ∧
    (enqueue (DownloadServer.connectionPool 0) 5 7).isNone = true := by
  decide

/-- C28: on a pool of `N ≥ 1` queues `enqueue` succeeds, keeps the number of queues, appends
the work at the tail of the queue `callerHash % N`, leaves every other queue as it was and
raises the pending count, the sum of the queue lengths, by one. -/
theorem enqueue_spec (pool : ThreadPool α) (callerHash : Nat) (work : α)
    (hN : 1 ≤ pool.task_queues.length) :
    ∃ pool2, enqueue pool callerHash work = some pool2 ∧
      pool2.task_queues.length = pool.task_queues.length ∧
      pool2.task_queues.getD (callerHash % pool.task_queues.length) []
        = pool.task_queues.getD (callerHash % pool.task_queues.length) [] ++ [work] ∧
      (∀ other, other ≠ callerHash % pool.task_queues.length →
        pool2.task_queues.getD other [] = pool.task_queues.getD other []) ∧
      get_pending_tasks_count pool2 = get_pending_tasks_count pool + 1 := by
  have hlt : callerHash % pool.task_queues.length < pool.task_queues.length :=
    Nat.mod_lt _ (by omega)
  refine ⟨ThreadPool.mk
    (pushAt pool.task_queues (callerHash % pool.task_queues.length) work) pool.stop, ?_,
    pushAt_length _ _ _, pushAt_getD_self _ _ _ hlt,
    fun other h => pushAt_getD_other _ _ _ _ h, pushAt_sum _ _ _ hlt⟩
  unfold enqueue
  rw [if_neg (by omega)]

/-- Witness of C28: work 9 enqueued on the pool of three queues by a caller with hash 7. -/
theorem enqueue_spec_witness :
    1 ≤ threePool.task_queues.length ∧
    ∃ pool2, enqueue threePool 7 9 = some pool2 ∧
      pool2.task_queues.length = threePool.task_queues.length ∧
      pool2.task_queues.getD (7 % threePool.task_queues.length) []
        = threePool.task_queues.getD (7 % threePool.task_queues.length) [] ++ [9] ∧
      (∀ other, other ≠ 7 % threePool.task_queues.length →
        pool2.task_queues.getD other [] = threePool.task_queues.getD other []) ∧
      get_pending_tasks_count pool2 = get_pending_tasks_count threePool + 1 :=
  ⟨by decide, enqueue_spec threePool 7 9 (by decide)⟩

/-- C29: one iteration of the loop of worker `index`.  If its own queue has a front, the
worker removes it and runs it.  If its own queue is empty, the victim differs from it and
the queue of the victim has a front, the worker removes that front and runs it.  Otherwise
the pool is unchanged, nothing is run and the worker waits.  Removing the front of a queue
leaves the rest of that queue and every other queue as they were and lowers the pending
count by one. -/
theorem worker_loop_spec (pool : ThreadPool α) (index victim_index : Nat) :
    (∀ work, frontAt pool.task_queues index = some work →
      worker_loop pool index victim_index
        = ({ pool with task_queues := popAt pool.task_queues index }, some work, false)) ∧
    (∀ work, frontAt pool.task_queues index = none → victim_index ≠ index →
      frontAt pool.task_queues victim_index = some work →
      worker_loop pool index victim_index
        = ({ pool with task_queues := popAt pool.task_queues victim_index },
            some work, false)) ∧
    (frontAt pool.task_queues index = none →
      (victim_index = index ∨ frontAt pool.task_queues victim_index = none) →
      worker_loop pool index victim_index = (pool, none, true)) ∧
    (∀ taken work, frontAt pool.task_queues taken = some work →
      (popAt pool.task_queues taken).getD taken [] = (pool.task_queues.getD taken []).tail ∧
      pool.task_queues.getD taken [] = work :: (pool.task_queues.getD taken []).tail ∧
      (∀ other, other ≠ taken →
        (popAt pool.task_queues taken).getD other [] = pool.task_queues.getD other []) ∧
      ((popAt pool.task_queues taken).map List.length).sum + 1
        = get_pending_tasks_count pool) := by
  refine ⟨fun work h => ?_, fun work h hne hv => ?_, fun h hor => ?_, fun taken work h => ?_⟩
  · unfold worker_loop
    rw [h]
  · unfold worker_loop steal_task
    rw [h, hv]
    simp [hne]
  · unfold worker_loop steal_task
    rw [h]
    rcases hor with hor | hor
    · simp [hor]
    · rw [hor]
      simp
  · refine ⟨popAt_getD_self _ _, ?_, fun other ho => popAt_getD_other _ _ _ ho,
      popAt_sum _ _ work h⟩
    unfold frontAt at h
    cases hq : pool.task_queues.getD taken [] with
    | nil => rw [hq] at h; simp at h
    | cons a queue =>
      rw [hq] at h
      simp only [List.head?_cons, Option.some.injEq] at h
      rw [h]
      rfl

/-- Witness of C29: worker 1 of the pool of three queues, with the victim 2, steals 3. -/
theorem worker_loop_spec_witness :
    frontAt threePool.task_queues 1 = none ∧ frontAt threePool.task_queues 2 = some 3 ∧
    (worker_loop threePool 1 2).2 = (some 3, false) ∧
    (worker_loop threePool 1 2).1.task_queues = [[1, 2], [], []] := by
  have h := (worker_loop_spec threePool 1 2).2.1 3 (by decide) (by decide) (by decide)
  rw [h]
  decide

end ThreadPool

namespace ChunkDownloader

/-- When the file has at least as many bytes as there are chunks, the ranges start at byte 0,
end at byte `fileSize - 1`, are non-empty, and each one starts right after the one before. -/
theorem chunks_contiguous (fileSize totalChunks : Nat) (hn : 1 ≤ totalChunks)
    (hF : totalChunks ≤ fileSize) (hsize : fileSize < SIZE_MOD) :
    chunkStart fileSize totalChunks 0 = 0 ∧
    chunkEnd fileSize totalChunks (totalChunks - 1) = fileSize - 1 ∧
    (∀ idx, idx < totalChunks →
      chunkStart fileSize totalChunks idx ≤ chunkEnd fileSize totalChunks idx) ∧
    (∀ idx, idx + 1 < totalChunks →
      chunkEnd fileSize totalChunks idx + 1 = chunkStart fileSize totalChunks (idx + 1)) := by
  have hcs : 1 ≤ fileSize / totalChunks := (Nat.one_le_div_iff (by omega)).mpr hF
  have hmul : ∀ idx, idx < totalChunks → idx * (fileSize / totalChunks) + fileSize / totalChunks
      ≤ fileSize := by
    intro idx hidx
    have h1 : (idx + 1) * (fileSize / totalChunks) ≤ totalChunks * (fileSize / totalChunks) :=
      Nat.mul_le_mul_right _ hidx
    have h2 : totalChunks * (fileSize / totalChunks) ≤ fileSize := Nat.mul_div_le _ _
    have h3 : (idx + 1) * (fileSize / totalChunks)
        = idx * (fileSize / totalChunks) + fileSize / totalChunks := by ring
    omega
  have hstart : ∀ idx, idx < totalChunks →
      chunkStart fileSize totalChunks idx = idx * (fileSize / totalChunks) := by
    intro idx hidx
    unfold chunkStart chunkSize
    have := hmul idx hidx
    exact Nat.mod_eq_of_lt (by omega)
  have hend : ∀ idx, idx + 1 < totalChunks → chunkEnd fileSize totalChunks idx
      = idx * (fileSize / totalChunks) + fileSize / totalChunks - 1 := by
    intro idx hidx
    have hm := hmul idx (by omega)
    unfold chunkEnd
    rw [if_neg (by omega), hstart idx (by omega)]
    unfold chunkSize
    have he : idx * (fileSize / totalChunks) + fileSize / totalChunks + SIZE_MOD - 1
        = (idx * (fileSize / totalChunks) + fileSize / totalChunks - 1) + SIZE_MOD := by omega
    rw [he, Nat.add_mod_right]
    exact Nat.mod_eq_of_lt (by omega)
  have hlast : chunkEnd fileSize totalChunks (totalChunks - 1) = fileSize - 1 := by
    unfold chunkEnd
    rw [if_pos (by omega)]
    have he : fileSize + SIZE_MOD - 1 = (fileSize - 1) + SIZE_MOD := by omega
    rw [he, Nat.add_mod_right]
    exact Nat.mod_eq_of_lt (by omega)
  refine ⟨by simp [chunkStart], hlast, fun idx hidx => ?_, fun idx hidx => ?_⟩
  · by_cases hl : idx + 1 = totalChunks
    · have hidx2 : idx = totalChunks - 1 := by omega
      rw [hidx2, hlast, hstart _ (by omega)]
      have := hmul (totalChunks - 1) (by omega)
      omega
    · rw [hstart idx hidx, hend idx (by omega)]
      omega
  · rw [hend idx hidx, hstart (idx + 1) hidx]
    have h3 : (idx + 1) * (fileSize / totalChunks)
        = idx * (fileSize / totalChunks) + fileSize / totalChunks := by ring
    omega

/-- C30, failing input: a file of 3 bytes in 4 chunks.  `chunkSize` is 0, so every chunk
starts at byte 0, and `start + chunkSize - 1` wraps: chunks 0 to 2 ask for the bytes 0 to
18446744073709551615 and chunk 3 for the bytes 0 to 2.  The ranges overlap, and each chunk is
the whole file. -/
theorem small_file_ranges_overlap :
    chunkSize 3 4 = 0 ∧
    chunkRanges 3 4 = [(0, 18446744073709551615), (0, 18446744073709551615),
      (0, 18446744073709551615), (0, 2)] ∧
    chunkRange 3 4 0 = "0-18446744073709551615" ∧
    chunkRange 3 4 3 = "0-2" := by
  refine ⟨by decide, by decide, by decide, by decide⟩

end ChunkDownloader

/-! ## The `LIST` response -/

theorem digitChar_ne_LF (d : Nat) (h : d < 10) : Nat.digitChar d ≠ charLF := by
  interval_cases d <;> decide

theorem toDigitsCore_noLF (fuel : Nat) :
    ∀ (n : Nat) (acc : List Char), charLF ∉ acc → charLF ∉ Nat.toDigitsCore 10 fuel n acc := by
  induction fuel with
  | zero => intro n acc h; simpa [Nat.toDigitsCore] using h
  | succ fuel ih =>
    intro n acc h
    unfold Nat.toDigitsCore
    have hcons : charLF ∉ Nat.digitChar (n % 10) :: acc := by
      intro hmem
      rcases List.mem_cons.mp hmem with h1 | h1
      · exact digitChar_ne_LF _ (Nat.mod_lt _ (by decide)) h1.symm
      · exact h h1
    dsimp only
    split
    · exact hcons
    · exact ih _ _ hcons

theorem countLF_append (a b : String) : countLF (a ++ b) = countLF a + countLF b := by
  simp [countLF, String.data_append, List.count_append]

theorem countLF_toString_nat (n : Nat) : countLF (toString n) = 0 := by
  have h : charLF ∉ Nat.toDigitsCore 10 (n + 1) n [] := toDigitsCore_noLF _ _ _ (by simp)
  exact List.count_eq_zero.mpr h

theorem countLF_toString_int (i : Int) : countLF (toString i) = 0 := by
  cases i with
  | ofNat m => exact countLF_toString_nat m
  | negSucc m =>
    show countLF ("-" ++ toString (Nat.succ m)) = 0
    rw [countLF_append, countLF_toString_nat]
    decide

theorem countLF_getStatusString (s : Status) : countLF (getStatusString s) = 0 := by
  cases s <;> decide

namespace Downloader

theorem find_mem (tasks : List (Int × DownloadTask)) (taskId : Int) (task : DownloadTask)
    (h : find tasks taskId = some task) : (taskId, task) ∈ tasks := by
  induction tasks with
  | nil => simp [find] at h
  | cons e rest ih =>
    obtain ⟨k, t⟩ := e
    unfold find at h
    by_cases hk : k = taskId
    · rw [if_pos hk] at h
      simp only [Option.some.injEq] at h
      rw [hk, h]
      exact List.mem_cons_self _ _
    · rw [if_neg hk] at h
      exact List.mem_cons_of_mem _ (ih h)

theorem find_of_key (tasks : List (Int × DownloadTask)) (taskId : Int)
    (h : taskId ∈ tasks.map Prod.fst) : ∃ task, find tasks taskId = some task := by
  induction tasks with
  | nil => simp at h
  | cons e rest ih =>
    obtain ⟨k, t⟩ := e
    unfold find
    by_cases hk : k = taskId
    · exact ⟨t, by rw [if_pos hk]⟩
    · rw [if_neg hk]
      apply ih
      rcases List.mem_cons.mp h with h1 | h1
      · exact absurd h1.symm hk
      · exact h1

theorem mem_assign (tasks : List (Int × DownloadTask)) (taskId : Int) (task : DownloadTask)
    (e : Int × DownloadTask) (h : e ∈ assign tasks taskId task) :
    e ∈ tasks ∨ e = (taskId, task) := by
  induction tasks with
  | nil => right; simpa [assign] using h
  | cons e0 rest ih =>
    obtain ⟨k, t⟩ := e0
    unfold assign at h
    by_cases hk : k = taskId
    · rw [if_pos hk] at h
      rcases List.mem_cons.mp h with h1 | h1
      · right; rw [h1, hk]
      · left; exact List.mem_cons_of_mem _ h1
    · rw [if_neg hk] at h
      rcases List.mem_cons.mp h with h1 | h1
      · left; rw [h1]; exact List.mem_cons_self _ _
      · rcases ih h1 with h2 | h2
        · left; exact List.mem_cons_of_mem _ h2
        · right; exact h2

end Downloader

namespace DownloadServer

theorem foldl_append_string (texts : List String) (init : String) :
    texts.foldl (fun r s => r ++ s) init = init ++ texts.foldl (fun r s => r ++ s) "" := by
  induction texts generalizing init with
  | nil => simp
  | cons text texts ih =>
    rw [List.foldl_cons, List.foldl_cons, ih (init ++ text), ih ("" ++ text),
      String.empty_append, String.append_assoc]

theorem join_cons (text : String) (texts : List String) :
    String.join (text :: texts) = text ++ String.join texts := by
  unfold String.join
  rw [List.foldl_cons, String.empty_append, foldl_append_string]

theorem foldl_append_init (f : Int → String) (ids : List Int) (init : String) :
    ids.foldl (fun response taskId => response ++ f taskId) init
      = init ++ String.join (ids.map f) := by
  induction ids generalizing init with
  | nil => simp [String.join]
  | cons taskId ids ih =>
    rw [List.foldl_cons, ih, List.map_cons, join_cons, String.append_assoc]

theorem countLF_join (f : Int → String) (ids : List Int)
    (h : ∀ taskId ∈ ids, countLF (f taskId) = 1) :
    countLF (String.join (ids.map f)) = ids.length := by
  induction ids with
  | nil => rfl
  | cons taskId ids ih =>
    rw [List.map_cons, join_cons, countLF_append, h taskId (List.mem_cons_self _ _),
      ih (fun t ht => h t (List.mem_cons_of_mem _ ht)), List.length_cons]
    omega

theorem countLF_listLine (d : Downloader) (taskId : Int) (task : DownloadTask)
    (hfind : Downloader.getTask d taskId = some task)
    (hurl : charLF ∉ task.url_.data) (hpath : charLF ∉ task.outputPath_.data) :
    countLF (listLine d taskId) = 1 := by
  have h1 : countLF "\n" = 1 := by decide
  have h2 : countLF ": " = 0 := by decide
  have h3 : countLF " => " = 0 := by decide
  have h4 : countLF " [" = 0 := by decide
  have h5 : countLF "] " = 0 := by decide
  have h6 : countLF "/" = 0 := by decide
  have h7 : countLF " bytes" = 0 := by decide
  have h8 : countLF task.url_ = 0 := List.count_eq_zero.mpr hurl
  have h9 : countLF task.outputPath_ = 0 := List.count_eq_zero.mpr hpath
  unfold listLine
  rw [hfind]
  simp only [countLF_append, h1, h2, h3, h4, h5, h6, h7, h8, h9, countLF_toString_nat,
    countLF_toString_int, countLF_getStatusString]

end DownloadServer

namespace DownloadServer

theorem extractWord_noLF (input : List Char) : charLF ∉ (extractWord input).1 := by
  intro h
  have hp := List.mem_takeWhile_imp h
  revert hp
  decide

theorem handleAdd_noLF (srv : DownloadServer) (args : List Char)
    (hlf : ∀ e ∈ srv.downloader_.tasks_,
      charLF ∉ e.2.url_.data ∧ charLF ∉ e.2.outputPath_.data) :
    ∀ e ∈ (handleAdd srv args).1.downloader_.tasks_,
      charLF ∉ e.2.url_.data ∧ charLF ∉ e.2.outputPath_.data := by
  by_cases hu : (extractWord args).1 = [] ∨ (extractWord (extractWord args).2).1 = []
  · unfold handleAdd
    rw [if_pos hu]
    exact hlf
  · have hadd : ∀ e ∈ (Downloader.addTask srv.downloader_ (String.mk (extractWord args).1)
        (String.mk (extractWord (extractWord args).2).1)).1.tasks_,
        charLF ∉ e.2.url_.data ∧ charLF ∉ e.2.outputPath_.data := by
      intro e he
      rcases Downloader.mem_assign _ _ _ _ he with h1 | h1
      · exact hlf e h1
      · rw [h1]
        exact ⟨extractWord_noLF _, extractWord_noLF _⟩
    unfold handleAdd
    rw [if_neg hu]
    dsimp only
    split
    · rename_i task hfind
      intro e he
      rcases Downloader.mem_assign _ _ _ _ he with h1 | h1
      · exact hadd e h1
      · rw [h1]
        exact hadd (_, task) (Downloader.find_mem _ _ task hfind)
    · exact hadd

/-- C21, as stated, fails on the empty registry: `LIST` then answers `OK No tasks`, not
`OK 0 tasks:`. -/
theorem list_empty_registry :
    Downloader.getTaskCount freshServer.downloader_ = 0 ∧
    (processCommand freshServer "LIST").2 = "OK No tasks" := by
  decide

/-- C21, amended: on a registry that is not empty and whose urls and output paths hold no
line feed, `LIST` changes nothing and answers `OK <n> tasks:`, with `n` the number of
registered tasks, followed by one line per registered id; each of these lines is the line of
a registered task and holds one line feed, at its start, so `n` line feeds follow the first
line.  `ADD` keeps the urls and output paths free of line feeds, since it stores words that
hold no white space. -/
theorem list_count_lines (srv : DownloadServer) (hne : srv.downloader_.tasks_ ≠ [])
    (hlf : ∀ e ∈ srv.downloader_.tasks_,
      charLF ∉ e.2.url_.data ∧ charLF ∉ e.2.outputPath_.data) :
    (processCommand srv "LIST").1 = srv ∧
    (processCommand srv "LIST").2
      = "OK " ++ toString (Downloader.getTaskCount srv.downloader_) ++ " tasks:" ++
        String.join ((Downloader.getTaskIds srv.downloader_).map (listLine srv.downloader_)) ∧
    (Downloader.getTaskIds srv.downloader_).length = Downloader.getTaskCount srv.downloader_ ∧
    (∀ taskId ∈ Downloader.getTaskIds srv.downloader_,
      (∃ task, Downloader.getTask srv.downloader_ taskId = some task) ∧
      (listLine srv.downloader_ taskId).data.head? = some charLF ∧
      countLF (listLine srv.downloader_ taskId) = 1) ∧
    countLF (processCommand srv "LIST").2 = Downloader.getTaskCount srv.downloader_ ∧
    (∀ args, ∀ e ∈ (handleAdd srv args).1.downloader_.tasks_,
      charLF ∉ e.2.url_.data ∧ charLF ∉ e.2.outputPath_.data) := by
  have hids : Downloader.getTaskIds srv.downloader_ ≠ [] := by
    unfold Downloader.getTaskIds
    intro h
    exact hne (List.map_eq_nil_iff.mp h)
  have hlen : (Downloader.getTaskIds srv.downloader_).length
      = Downloader.getTaskCount srv.downloader_ := by
    simp [Downloader.getTaskIds, Downloader.getTaskCount]
  have hline : ∀ taskId ∈ Downloader.getTaskIds srv.downloader_,
      (∃ task, Downloader.getTask srv.downloader_ taskId = some task) ∧
      (listLine srv.downloader_ taskId).data.head? = some charLF ∧
      countLF (listLine srv.downloader_ taskId) = 1 := by
    intro taskId hmem
    obtain ⟨task, hfind⟩ := Downloader.find_of_key _ _ hmem
    have hin := hlf _ (Downloader.find_mem _ _ _ hfind)
    refine ⟨⟨task, hfind⟩, ?_, countLF_listLine _ _ task hfind hin.1 hin.2⟩
    unfold listLine
    rw [show Downloader.getTask srv.downloader_ taskId = some task from hfind]
    simp only [String.append_assoc, String.data_append]
    rfl
  have hresp : processCommand srv "LIST" = handleList srv := rfl
  have hbody : (handleList srv).2
      = "OK " ++ toString (Downloader.getTaskCount srv.downloader_) ++ " tasks:" ++
        String.join ((Downloader.getTaskIds srv.downloader_).map
          (listLine srv.downloader_)) := by
    unfold handleList
    rw [if_neg hids, foldl_append_init, hlen]
  have hsrv : (handleList srv).1 = srv := by
    unfold handleList
    split <;> rfl
  refine ⟨by rw [hresp, hsrv], by rw [hresp, hbody], hlen, hline, ?_,
    fun args => handleAdd_noLF srv args hlf⟩
  rw [hresp, hbody, countLF_append, countLF_append, countLF_append, countLF_toString_nat,
    countLF_join _ _ (fun t ht => (hline t ht).2.2), hlen]
  have h1 : countLF "OK " = 0 := by decide
  have h2 : countLF " tasks:" = 0 := by decide
  rw [h1, h2]
  omega

/-- Witness of C21: the server with one task answers `LIST` with one line. -/
theorem list_count_lines_witness :
    oneTaskServer.downloader_.tasks_ ≠ [] ∧
    countLF (processCommand oneTaskServer "LIST").2 = 1 ∧
    (processCommand oneTaskServer "LIST").2
      = "OK 1 tasks:\n0: http://example.test/1k.bin => /tmp/a.bin [Idle] 0/0 bytes" := by
  have h := list_count_lines oneTaskServer (by decide) (by decide)
  exact ⟨by decide, h.2.2.2.2.1, by decide⟩

end DownloadServer

/-! ## The `ADD` command -/

theorem splitWords_current (input : List Char) :
    ∀ current : List Char, current ≠ [] →
      splitWords input current
        = (current.reverse ++ input.takeWhile (fun c => !isspace c))
            :: splitWords (input.dropWhile (fun c => !isspace c)) [] := by
  induction input with
  | nil => intro current hne; simp [splitWords, hne]
  | cons c rest ih =>
    intro current hne
    by_cases hs : isspace c = true
    · simp [splitWords, hs, hne, List.takeWhile, List.dropWhile]
    · have hs2 : isspace c = false := by simpa using hs
      have hstep : splitWords (c :: rest) current = splitWords rest (c :: current) := by
        simp [splitWords, hs2]
      rw [hstep, ih (c :: current) (by simp)]
      simp [List.takeWhile, List.dropWhile, hs2]

theorem splitWords_skip (input : List Char) :
    splitWords input [] = splitWords (input.dropWhile isspace) [] := by
  induction input with
  | nil => rfl
  | cons c rest ih =>
    by_cases hs : isspace c = true
    · simp [splitWords, hs, List.dropWhile, ih]
    · have hs2 : isspace c = false := by simpa using hs
      simp [List.dropWhile, hs2]

theorem dropWhile_head (input : List Char) (c : Char) (rest : List Char)
    (h : input.dropWhile isspace = c :: rest) : isspace c = false := by
  induction input with
  | nil => simp at h
  | cons a input ih =>
    by_cases hs : isspace a = true
    · simp only [List.dropWhile, hs] at h
      exact ih h
    · have hs2 : isspace a = false := by simpa using hs
      simp only [List.dropWhile, hs2] at h
      simp only [List.cons.injEq] at h
      rw [← h.1]
      exact hs2

theorem splitWords_extractWord (input : List Char) :
    splitWords input []
      = if (extractWord input).1 = [] then []
        else (extractWord input).1 :: splitWords (extractWord input).2 [] := by
  rw [splitWords_skip]
  unfold extractWord
  cases hd : input.dropWhile isspace with
  | nil => simp [splitWords]
  | cons c rest =>
    have hs := dropWhile_head input c rest hd
    have hstep : splitWords (c :: rest) [] = splitWords rest [c] := by
      simp [splitWords, hs]
    rw [hstep, splitWords_current rest [c] (by simp)]
    simp [List.takeWhile, List.dropWhile, hs]

theorem splitWords_length (input : List Char) :
    (splitWords input []).length < 2
      ↔ (extractWord input).1 = [] ∨ (extractWord (extractWord input).2).1 = [] := by
  rw [splitWords_extractWord input, splitWords_extractWord (extractWord input).2]
  by_cases h1 : (extractWord input).1 = []
  · simp [h1]
  · by_cases h2 : (extractWord (extractWord input).2).1 = []
    · simp [h1, h2]
    · simp [h1, h2]

theorem splitWords_two (input url path : List Char) (more : List (List Char))
    (h : splitWords input [] = url :: path :: more) :
    (extractWord input).1 = url ∧ (extractWord (extractWord input).2).1 = path ∧
    ¬ ((extractWord input).1 = [] ∨ (extractWord (extractWord input).2).1 = []) := by
  rw [splitWords_extractWord input, splitWords_extractWord (extractWord input).2] at h
  by_cases h1 : (extractWord input).1 = []
  · simp [h1] at h
  · by_cases h2 : (extractWord (extractWord input).2).1 = []
    · simp [h1, h2] at h
    · simp only [h1, h2, if_false, List.cons.injEq] at h
      exact ⟨h.1, h.2.1, by simp [h1, h2]⟩

namespace Downloader

theorem assign_assign (tasks : List (Int × DownloadTask)) (taskId : Int)
    (task task2 : DownloadTask) :
    assign (assign tasks taskId task) taskId task2 = assign tasks taskId task2 := by
  induction tasks with
  | nil => simp [assign]
  | cons e rest ih =>
    obtain ⟨k, t⟩ := e
    by_cases hk : k = taskId
    · simp [assign, hk]
    · simp [assign, hk, ih]

theorem assign_fresh (tasks : List (Int × DownloadTask)) (taskId : Int) (task : DownloadTask)
    (h : find tasks taskId = none) : assign tasks taskId task = tasks ++ [(taskId, task)] := by
  induction tasks with
  | nil => rfl
  | cons e rest ih =>
    obtain ⟨k, t⟩ := e
    by_cases hk : k = taskId
    · simp [find, hk] at h
    · simp only [find, hk, if_false] at h
      simp [assign, hk, ih h]

theorem assign_length_found (tasks : List (Int × DownloadTask)) (taskId : Int)
    (task found : DownloadTask) (h : find tasks taskId = some found) :
    (assign tasks taskId task).length = tasks.length := by
  induction tasks with
  | nil => simp [find] at h
  | cons e rest ih =>
    obtain ⟨k, t⟩ := e
    by_cases hk : k = taskId
    · simp [assign, hk]
    · simp only [find, hk, if_false] at h
      simp [assign, hk, ih h]

theorem find_assign_keep (tasks : List (Int × DownloadTask)) (taskId other : Int)
    (task found : DownloadTask) (h : find tasks other = some found) :
    ∃ kept, find (assign tasks taskId task) other = some kept := by
  induction tasks with
  | nil => simp [find] at h
  | cons e rest ih =>
    obtain ⟨k, t⟩ := e
    by_cases hk : k = taskId
    · subst hk
      by_cases ho : k = other
      · subst ho
        exact ⟨task, by simp [assign, find]⟩
      · simp only [find, ho, if_false] at h
        exact ⟨found, by simp [assign, find, ho, h]⟩
    · by_cases ho : k = other
      · subst ho
        exact ⟨t, by simp [assign, find, hk]⟩
      · simp only [find, ho, if_false] at h
        obtain ⟨kept, hkept⟩ := ih h
        exact ⟨kept, by simp [assign, find, hk, ho, hkept]⟩

end Downloader

namespace DownloadServer

theorem handleAdd_eq (srv : DownloadServer) (args : List Char)
    (h : ¬ ((extractWord args).1 = [] ∨ (extractWord (extractWord args).2).1 = [])) :
    (handleAdd srv args).2 = "OK " ++ toString srv.downloader_.nextTaskId_ ∧
    (handleAdd srv args).1.downloader_.nextTaskId_
      = wrapInt32 (srv.downloader_.nextTaskId_ + 1) ∧
    (handleAdd srv args).1.downloader_.tasks_
      = Downloader.assign srv.downloader_.tasks_ srv.downloader_.nextTaskId_
          (DownloadTask.setProgressCallback
            (DownloadTask.setTimeout
              (DownloadTask.new (String.mk (extractWord args).1)
                (String.mk (extractWord (extractWord args).2).1))
              srv.downloader_.defaultTimeout_) true) ∧
    (handleAdd srv args).1.downloader_.defaultTimeout_ = srv.downloader_.defaultTimeout_ ∧
    (handleAdd srv args).1.downloader_.threadPool_ = srv.downloader_.threadPool_ ∧
    (handleAdd srv args).1.running_ = srv.running_ := by
  have hfind : Downloader.getTask
      (Downloader.addTask srv.downloader_ (String.mk (extractWord args).1)
        (String.mk (extractWord (extractWord args).2).1)).1
      (Downloader.addTask srv.downloader_ (String.mk (extractWord args).1)
        (String.mk (extractWord (extractWord args).2).1)).2
      = some (DownloadTask.setTimeout
          (DownloadTask.new (String.mk (extractWord args).1)
            (String.mk (extractWord (extractWord args).2).1))
          srv.downloader_.defaultTimeout_) :=
    Downloader.find_assign_self _ _ _
  unfold handleAdd
  rw [if_neg h]
  dsimp only
  rw [hfind]
  refine ⟨rfl, rfl, ?_, rfl, rfl, rfl⟩
  exact Downloader.assign_assign _ _ _ _

theorem processCommand_add (srv : DownloadServer) (rest : List Char) :
    processCommand srv (String.mk ("ADD ".data ++ rest)) = handleAdd srv (' ' :: rest) := by
  rfl

theorem addedServer_succ (n : Nat) :
    addedServer (n + 1) = (handleAdd (addedServer n) (' ' :: "u o".data)).1 := by
  unfold addedServer
  rw [Function.iterate_succ_apply']
  rfl

theorem addedServer_next (n : Nat) :
    (addedServer n).downloader_.nextTaskId_ = wrapInt32 (n : Int) := by
  induction n with
  | zero => rfl
  | succ n ih =>
    rw [addedServer_succ, (handleAdd_eq (addedServer n) _ (by decide)).2.1, ih,
      Downloader.wrapInt32_add]
    rfl

theorem addedServer_first (n : Nat) :
    ∃ task, Downloader.getTask (addedServer (n + 1)).downloader_ 0 = some task := by
  induction n with
  | zero => exact ⟨_, rfl⟩
  | succ n ih =>
    obtain ⟨task, htask⟩ := ih
    unfold Downloader.getTask
    rw [addedServer_succ, (handleAdd_eq (addedServer (n + 1)) _ (by decide)).2.2.1]
    exact Downloader.find_assign_keep _ _ _ _ task htask

end DownloadServer

namespace DownloadServer

theorem ok_ne_usage (text : String) :
    "OK " ++ text ≠ "ERROR Usage: ADD <url> <output_path>" := by
  intro h
  have h2 := congrArg (fun s => s.data.head?) h
  simp [String.data_append] at h2

/-- C25, as stated, fails once the id counter has wrapped: after 4294967296 `ADD` commands
the counter is 0 again, the next `ADD` answers `OK 0` and replaces the task registered under
0, so the registry gains no task. -/
theorem add_replaces_after_wrap :
    (processCommand (addedServer 4294967296) "ADD u o").2 = "OK 0" ∧
    (∃ task, Downloader.getTask (addedServer 4294967296).downloader_ 0 = some task) ∧
    Downloader.getTaskCount (processCommand (addedServer 4294967296) "ADD u o").1.downloader_
      = Downloader.getTaskCount (addedServer 4294967296).downloader_ := by
  have hnext : (addedServer 4294967296).downloader_.nextTaskId_ = 0 := by
    rw [addedServer_next]
    norm_num [wrapInt32]
  have hfirst : ∃ task, Downloader.getTask (addedServer 4294967296).downloader_ 0
      = some task := addedServer_first 4294967295
  have hcmd : processCommand (addedServer 4294967296) "ADD u o"
      = handleAdd (addedServer 4294967296) (' ' :: "u o".data) :=
    processCommand_add _ "u o".data
  have heq := handleAdd_eq (addedServer 4294967296) (' ' :: "u o".data) (by decide)
  obtain ⟨task, htask⟩ := hfirst
  refine ⟨?_, ⟨task, htask⟩, ?_⟩
  · rw [hcmd, heq.1, hnext]
    rfl
  · unfold Downloader.getTaskCount
    rw [hcmd, heq.2.2.1, hnext]
    exact Downloader.assign_length_found _ _ _ task htask

/-- C25, amended: `ADD` answers `ERROR Usage: ADD <url> <output_path>` exactly when fewer
than two white-space separated words follow the command, and then the server, with its
registry and id counter, is unchanged.  Otherwise it answers `OK <id>` with `id` the value
of the id counter, the counter advances by one (as a 32-bit `int`), and the task registered
under `id` afterwards is Idle with the first word as url and the second as output path; when
`id` was not registered before, the registry is the former one with that one task added. -/
theorem add_spec (srv : DownloadServer) (args : List Char) :
    processCommand srv "ADD" = handleAdd srv [] ∧
    (∀ rest, processCommand srv (String.mk ("ADD ".data ++ rest))
      = handleAdd srv (' ' :: rest)) ∧
    ((handleAdd srv args).2 = "ERROR Usage: ADD <url> <output_path>"
      ↔ (splitWords args []).length < 2) ∧
    ((splitWords args []).length < 2 → (handleAdd srv args).1 = srv) ∧
    (∀ url path more, splitWords args [] = url :: path :: more →
      (handleAdd srv args).2 = "OK " ++ toString srv.downloader_.nextTaskId_ ∧
      (handleAdd srv args).1.downloader_.nextTaskId_
        = wrapInt32 (srv.downloader_.nextTaskId_ + 1) ∧
      ∃ task,
        Downloader.getTask (handleAdd srv args).1.downloader_ srv.downloader_.nextTaskId_
          = some task ∧
        task.status_ = Status.Idle ∧ task.url_ = String.mk url ∧
        task.outputPath_ = String.mk path ∧
        (Downloader.getTask srv.downloader_ srv.downloader_.nextTaskId_ = none →
          (handleAdd srv args).1.downloader_.tasks_
            = srv.downloader_.tasks_ ++ [(srv.downloader_.nextTaskId_, task)])) := by
  refine ⟨rfl, fun rest => rfl, ?_, ?_, ?_⟩
  · rw [splitWords_length]
    constructor
    · intro h
      by_contra hu
      rw [(handleAdd_eq srv args hu).1] at h
      exact ok_ne_usage _ h
    · intro hu
      unfold handleAdd
      rw [if_pos hu]
  · intro hlen
    rw [splitWords_length] at hlen
    unfold handleAdd
    rw [if_pos hlen]
  · intro url path more hwords
    obtain ⟨hurl, hpath, hu⟩ := splitWords_two args url path more hwords
    have heq := handleAdd_eq srv args hu
    refine ⟨heq.1, heq.2.1,
      DownloadTask.setProgressCallback
        (DownloadTask.setTimeout
          (DownloadTask.new (String.mk (extractWord args).1)
            (String.mk (extractWord (extractWord args).2).1))
          srv.downloader_.defaultTimeout_) true, ?_, rfl, ?_, ?_, ?_⟩
    · unfold Downloader.getTask
      rw [heq.2.2.1]
      exact Downloader.find_assign_self _ _ _
    · rw [← hurl]
      rfl
    · rw [← hpath]
      rfl
    · intro hfresh
      rw [heq.2.2.1]
      exact Downloader.assign_fresh _ _ _ hfresh

/-- Witness of C25: on a server just constructed, `ADD http://x/` is refused and `ADD u o`
registers task 0. -/
theorem add_spec_witness :
    (splitWords (' ' :: "http://x/".data) []).length < 2 ∧
    (handleAdd freshServer (' ' :: "http://x/".data)).2
      = "ERROR Usage: ADD <url> <output_path>" ∧
    splitWords (' ' :: "u o".data) [] = ["u".data, "o".data] ∧
    (handleAdd freshServer (' ' :: "u o".data)).2
      = "OK " ++ toString freshServer.downloader_.nextTaskId_ :=
  ⟨by decide, (add_spec freshServer (' ' :: "http://x/".data)).2.2.1.mpr (by decide),
    by decide,
    ((add_spec freshServer (' ' :: "u o".data)).2.2.2.2 "u".data "o".data []
      (by decide)).1⟩

end DownloadServer

namespace DownloadServer

/-- When `downloaded * 100` fits in a `size_t` and `downloaded ≤ total`, the frame carries
the truncated quotient `100 * downloaded / total`, which is at most 100. -/
theorem progress_in_range (taskId : Int) (downloaded total : Nat) (ht : 0 < total)
    (hfit : downloaded * 100 < SIZE_MOD) (hle : downloaded ≤ total) :
    progressReporter taskId downloaded total
      = some ("PROGRESS " ++ (toString taskId ++ ":" ++
          toString ((100 * downloaded / total : Nat) : Int) ++ "%")) ∧
    100 * downloaded / total ≤ 100 := by
  have hq : 100 * downloaded / total ≤ 100 := by
    apply Nat.div_le_of_le_mul
    nlinarith
  refine ⟨?_, hq⟩
  unfold progressReporter
  rw [if_pos ht, Nat.mod_eq_of_lt hfit, Nat.mul_comm downloaded 100,
    Downloader.wrapInt32_of_lt _ (by omega)]

end DownloadServer

/-! ## Two general forms -/

namespace DownloadTask

/-- When `start()` on an Idle or Failed task returns true, the task is the one
`curl_easy_perform` left, with only the status replaced by Completed. -/
theorem start_true_only_status (p : Process) (t : DownloadTask) (f : Fetch)
    (h : t.status_ = Status.Idle ∨ t.status_ = Status.Failed)
    (hr : (start p t f).2.2 = true) :
    (start p t f).2.1 =
      { (curl_easy_perform (CurlHandle.mk t.url_ t.timeout_ (rangeOption t)) p
          { t with curlHandle_ := some (CurlHandle.mk t.url_ t.timeout_ (rangeOption t)),
                   cancelRequested_ := false, errorMessage_ := "",
                   status_ := Status.Downloading } f).2.1 with
        status_ := Status.Completed } := by
  have hi : f.initOk = true := by
    cases hi : f.initOk with
    | true => rfl
    | false =>
      have hg : ¬ (t.status_ ≠ Status.Idle ∧ t.status_ ≠ Status.Failed) := by
        rcases h with h | h <;> simp [h]
      simp [start, hg, setupCurl, hi] at hr
  rw [start_eq_performDownload p t f h hi] at hr ⊢
  exact (performDownload_some p _ f _ rfl hr).2

end DownloadTask

namespace DownloadServer

/-- When the value of the id counter is registered already, an `ADD` with two words replaces
the task under that id and the number of tasks stays the same. -/
theorem handleAdd_registered (srv : DownloadServer) (args : List Char)
    (found : DownloadTask)
    (h : ¬ ((extractWord args).1 = [] ∨ (extractWord (extractWord args).2).1 = []))
    (hfound : Downloader.getTask srv.downloader_ srv.downloader_.nextTaskId_ = some found) :
    Downloader.getTaskCount (handleAdd srv args).1.downloader_
      = Downloader.getTaskCount srv.downloader_ := by
  unfold Downloader.getTaskCount
  rw [(handleAdd_eq srv args h).2.2.1]
  exact Downloader.assign_length_found _ _ _ found hfound

end DownloadServer
